import Mathlib

/-!
Verification of the aerie deployment reconciliation engine
(pkg/deployment, pkg/proxy, pkg/ssh, the local executor).

The Go source is shallowly embedded: pure helpers (ServiceHash and its
canonicalisation, GenerateNginxConfig) become pure Lean functions; the
stateful engine (Deployment methods) becomes explicit state passing over a
model of the Docker host, with every runtime CLI invocation recorded in a
command trace.  Machine integers are Nat/Int with explicit reductions.
-/

set_option maxRecDepth 10000

/-! ## Data model (pkg/config)

Mirrors the config structs of the commit the deployment engine is written
against: Service with Name, Image, Port, HealthCheck, Routes, Volumes,
Forwards, EnvVars; HealthCheck with Path, Interval, Timeout, Retries
(durations are Go time.Duration, i.e. integer nanoseconds); Route with
PathPrefix and StripPrefix (named path / strip here); Config.Volumes is a
list of volume names.
-/

structure EnvVar where
  name : String
  value : String
deriving DecidableEq, Repr

structure HealthCheck where
  path : String
  interval : Int
  timeout : Int
  retries : Int
deriving DecidableEq, Repr

structure Route where
  path : String
  strip : Bool
deriving DecidableEq, Repr

structure Service where
  name : String
  image : String
  port : Int
  healthCheck : Option HealthCheck
  routes : List Route
  volumes : List String
  forwards : List String
  envVars : List EnvVar
deriving DecidableEq, Repr

structure Project where
  name : String
  domain : String
  email : String
deriving DecidableEq, Repr

structure Config where
  project : Project
  services : List Service
  volumes : List String
deriving DecidableEq, Repr

/-! ## SHA-256 (crypto/sha256), executable over Nat -/

def m32 : Nat := 4294967296

def rotr32 (x n : Nat) : Nat := ((x >>> n) ||| (x <<< (32 - n))) % m32

def bsig0 (x : Nat) : Nat := (rotr32 x 2) ^^^ (rotr32 x 13) ^^^ (rotr32 x 22)

def bsig1 (x : Nat) : Nat := (rotr32 x 6) ^^^ (rotr32 x 11) ^^^ (rotr32 x 25)

def ssig0 (x : Nat) : Nat := (rotr32 x 7) ^^^ (rotr32 x 18) ^^^ (x >>> 3)

def ssig1 (x : Nat) : Nat := (rotr32 x 17) ^^^ (rotr32 x 19) ^^^ (x >>> 10)

def chF (x y z : Nat) : Nat := (x &&& y) ^^^ ((4294967295 - x) &&& z)

def majF (x y z : Nat) : Nat := (x &&& y) ^^^ (x &&& z) ^^^ (y &&& z)

def sha256K : List Nat :=
  [1116352408, 1899447441, 3049323471, 3921009573, 961987163, 1508970993,
   2453635748, 2870763221, 3624381080, 310598401, 607225278, 1426881987,
   1925078388, 2162078206, 2614888103, 3248222580, 3835390401, 4022224774,
   264347078, 604807628, 770255983, 1249150122, 1555081692, 1996064986,
   2554220882, 2821834349, 2952996808, 3210313671, 3336571891, 3584528711,
   113926993, 338241895, 666307205, 773529912, 1294757372, 1396182291,
   1695183700, 1986661051, 2177026350, 2456956037, 2730485921, 2820302411,
   3259730800, 3345764771, 3516065817, 3600352804, 4094571909, 275423344,
   430227734, 506948616, 659060556, 883997877, 958139571, 1322822218,
   1537002063, 1747873779, 1955562222, 2024104815, 2227730452, 2361852424,
   2428436474, 2756734187, 3204031479, 3329325298]

def sha256H0 : List Nat :=
  [1779033703, 3144134277, 1013904242, 2773480762,
   1359893119, 2600822924, 528734635, 1541459225]

def utf8Encode (c : Nat) : List Nat :=
  if c < 128 then [c]
  else if c < 2048 then [192 + c / 64, 128 + c % 64]
  else if c < 65536 then [224 + c / 4096, 128 + (c / 64) % 64, 128 + c % 64]
  else [240 + c / 262144, 128 + (c / 4096) % 64, 128 + (c / 64) % 64, 128 + c % 64]

def strBytes (s : String) : List Nat :=
  (s.data.map (fun ch => utf8Encode ch.toNat)).flatten

def beBytes (n : Nat) (v : Nat) : List Nat :=
  (List.range n).map (fun i => (v >>> (8 * (n - 1 - i))) % 256)

def sha256Pad (msg : List Nat) : List Nat :=
  let L := msg.length
  let k := (120 - ((L + 1) % 64)) % 64
  msg ++ [128] ++ List.replicate k 0 ++ beBytes 8 (L * 8)

def chunk64 : Nat → List Nat → List (List Nat)
  | 0, _ => []
  | _, [] => []
  | fuel + 1, l => l.take 64 :: chunk64 fuel (l.drop 64)

def bytesToWords : List Nat → List Nat
  | b0 :: b1 :: b2 :: b3 :: rest =>
      (b0 * 16777216 + b1 * 65536 + b2 * 256 + b3) :: bytesToWords rest
  | _ => []

def extendW : Nat → List Nat → List Nat
  | 0, ws => ws
  | n + 1, ws =>
      let i := ws.length
      let w := (ssig1 (ws.getD (i - 2) 0) + ws.getD (i - 7) 0 +
                ssig0 (ws.getD (i - 15) 0) + ws.getD (i - 16) 0) % m32
      extendW n (ws ++ [w])

def sha256Round (st : List Nat) (kw : Nat × Nat) : List Nat :=
  match st with
  | [a, b, c, d, e, f, g, h] =>
      let t1 := (h + bsig1 e + chF e f g + kw.1 + kw.2) % m32
      let t2 := (bsig0 a + majF a b c) % m32
      [(t1 + t2) % m32, a, b, c, (d + t1) % m32, e, f, g]
  | _ => st

def sha256Block (hs : List Nat) (block : List Nat) : List Nat :=
  let ws := extendW 48 (bytesToWords block)
  let st := (sha256K.zip ws).foldl sha256Round hs
  (hs.zip st).map (fun p => (p.1 + p.2) % m32)

def hexDigit (n : Nat) : Char :=
  "0123456789abcdef".data.getD n 'x'

def hexWord (w : Nat) : List Char :=
  (List.range 8).map (fun i => hexDigit ((w >>> (4 * (7 - i))) % 16))

def sha256hex (s : String) : String :=
  let padded := sha256Pad (strBytes s)
  let hs := (chunk64 (padded.length) padded).foldl sha256Block sha256H0
  String.mk ((hs.map hexWord).flatten)

/-! ## Service fingerprint (ServiceHash, sortServiceFields, sortSlice)

Go sorts each slice field by the string form fmt.Sprintf("%v") of its
elements; sort.Slice on the short slices at hand is insertion sort, which
is stable, so the embedding uses a stable insertion sort keyed by the
rendered string.  The sorted fields are then marshalled as the JSON object
json.Marshal produces for map[string]interface{} (keys in lexicographic
order: EnvVars, Forwards, HealthCheck, Image, Name, Port, Routes, Volumes),
and the sha256 digest of that encoding is rendered in hex.
-/

def insertByLe (le : α → α → Bool) (x : α) : List α → List α
  | [] => [x]
  | y :: ys => if le x y then x :: y :: ys else y :: insertByLe le x ys

def insertionSortByLe (le : α → α → Bool) : List α → List α
  | [] => []
  | x :: xs => insertByLe le x (insertionSortByLe le xs)

/-- Kernel-evaluable lexicographic order on char lists; agrees with Go's
byte-wise string comparison (UTF-8 byte order equals code-point order). -/
def lexLe : List Char → List Char → Bool
  | [], _ => true
  | _ :: _, [] => false
  | a :: as, b :: bs =>
      if a.toNat < b.toNat then true
      else if b.toNat < a.toNat then false
      else lexLe as bs

def strLe (a b : String) : Bool := lexLe a.data b.data

def goShowEnvVar (e : EnvVar) : String :=
  "\x7b" ++ EnvVar.name e ++ " " ++ EnvVar.value e ++ "\x7d"

def goShowRoute (r : Route) : String :=
  "\x7b" ++ Route.path r ++ " " ++ (if Route.strip r then "true" else "false") ++ "\x7d"

def sortEnvVars (l : List EnvVar) : List EnvVar :=
  insertionSortByLe (fun a b => strLe (goShowEnvVar a) (goShowEnvVar b)) l

def sortRoutes (l : List Route) : List Route :=
  insertionSortByLe (fun a b => strLe (goShowRoute a) (goShowRoute b)) l

def sortStrings (l : List String) : List String :=
  insertionSortByLe (fun a b => strLe a b) l

def jsonEscapeChar (c : Char) : List Char :=
  if c = '"' then ['\\', '"']
  else if c = '\\' then ['\\', '\\']
  else if c = '\n' then ['\\', 'n']
  else if c = '\r' then ['\\', 'r']
  else if c = '\t' then ['\\', 't']
  else if c = '<' then "\\u003c".data
  else if c = '>' then "\\u003e".data
  else if c = '&' then "\\u0026".data
  else if c.toNat < 32 then
    ['\\', 'u', '0', '0', hexDigit (c.toNat / 16), hexDigit (c.toNat % 16)]
  else [c]

def jsonQuote (s : String) : String :=
  "\"" ++ String.mk ((s.data.map jsonEscapeChar).flatten) ++ "\""

def jsonEnvVar (e : EnvVar) : String :=
  "\x7b\"Name\":" ++ jsonQuote (EnvVar.name e) ++ ",\"Value\":" ++ jsonQuote (EnvVar.value e) ++ "\x7d"

def jsonRoute (r : Route) : String :=
  "\x7b\"PathPrefix\":" ++ jsonQuote (Route.path r) ++ ",\"StripPrefix\":" ++
    (if Route.strip r then "true" else "false") ++ "\x7d"

def jsonHealthCheck : Option HealthCheck → String
  | none => "null"
  | some h =>
      "\x7b\"Path\":" ++ jsonQuote (HealthCheck.path h) ++
      ",\"Interval\":" ++ toString (HealthCheck.interval h) ++
      ",\"Timeout\":" ++ toString (HealthCheck.timeout h) ++
      ",\"Retries\":" ++ toString (HealthCheck.retries h) ++ "\x7d"

def jsonArray (elems : List String) : String :=
  "[" ++ String.intercalate "," elems ++ "]"

/-- Canonical encoding of sortServiceFields followed by json.Marshal:
map keys in lexicographic order, slice fields sorted by rendered form. -/
def canonicalServiceJson (s : Service) : String :=
  "\x7b\"EnvVars\":" ++ jsonArray ((sortEnvVars (Service.envVars s)).map jsonEnvVar) ++
  ",\"Forwards\":" ++ jsonArray ((sortStrings (Service.forwards s)).map jsonQuote) ++
  ",\"HealthCheck\":" ++ jsonHealthCheck (Service.healthCheck s) ++
  ",\"Image\":" ++ jsonQuote (Service.image s) ++
  ",\"Name\":" ++ jsonQuote (Service.name s) ++
  ",\"Port\":" ++ toString (Service.port s) ++
  ",\"Routes\":" ++ jsonArray ((sortRoutes (Service.routes s)).map jsonRoute) ++
  ",\"Volumes\":" ++ jsonArray ((sortStrings (Service.volumes s)).map jsonQuote) ++
  "\x7d"

/-- ServiceHash: sha256 over the canonical encoding, hex rendered. -/
def ServiceHash (s : Service) : String :=
  sha256hex (canonicalServiceJson s)

/-! ## Docker host model and command trace

Every runtime CLI invocation the engine makes through runCommand (and the
engine-side sleeps) is recorded as a Cmd.  The host interpreter gives each
command the semantics of the Docker CLI on a single host; `failures` is a
set of commands made to fail, modelling runtime errors, so that the
engine's error paths are reachable.  Outputs are returned already trimmed
(runCommand applies strings.TrimSpace to every output), and JSON parsing of
inspect output is modelled by returning the container record directly.
The primitives model the SSH executor, whose reader is non-nil even when
the command fails; the nil-reader path of the local executor is modelled
separately below for runCommand itself.
-/

inductive Cmd where
  | pull (image : String)
  | images (image : String)
  | ps (network : String)
  | inspect (cid : String)
  | inspectHealth (container : String)
  | run (svc : Service) (network suffix hash : String)
  | stop (ref : String)
  | rm (ref : String)
  | rmForce (ref : String)
  | rename (src dst : String)
  | netConnect (al network ref : String)
  | netDisconnect (network ref : String)
  | netLs
  | netCreate (network : String)
  | volInspect (volume : String)
  | volCreate (volume : String)
  | sleep (ns : Int)
  | mkdir (path : String)
  | echoHome
  | copyTo (dst : String)
deriving DecidableEq, Repr

structure Container where
  id : String
  name : String
  image : String
  labels : List (String × String)
  nets : List (String × List String)
  running : Bool
deriving DecidableEq, Repr

structure Host where
  containers : List Container
  networks : List String
  volumes : List String
  images : List (String × String)
  registry : List (String × String)
  homeDir : String
  healthAt : String → Nat → String
  clock : Nat
  failures : List Cmd

def alkup {β : Type} (l : List (String × β)) (k : String) : Option β :=
  (l.find? (fun p => p.1 == k)).map (fun p => p.2)

def alset : List (String × String) → String → String → List (String × String)
  | [], k, v => [(k, v)]
  | (k', v') :: rest, k, v =>
      if k' == k then (k, v) :: rest else (k', v') :: alset rest k v

def hasAlias (c : Container) (network service : String) : Bool :=
  match alkup c.nets network with
  | some aliases => aliases.contains service
  | none => false

def findContainer (h : Host) (ref : String) : Option Container :=
  h.containers.find? (fun c => c.id == ref || c.name == ref)

def nameTaken (h : Host) (nm : String) : Bool :=
  h.containers.any (fun c => c.name == nm)

def idsOnNetwork (conts : List Container) (network : String) : List String :=
  (conts.filter (fun c => (alkup c.nets network).isSome)).map Container.id

def Host.failsOn (h : Host) (c : Cmd) : Bool := h.failures.contains c

/-- Result of an engine step: Go's error value, with a third outcome for a
runtime panic (which aborts the whole process, so it always propagates). -/
inductive Res (α : Type) where
  | ok (a : α)
  | err (e : String)
  | panic
deriving DecidableEq, Repr

/-- One engine step: updated host, the commands issued, and the result. -/
abbrev Step (α : Type) := Host × List Cmd × Res α

/-- Sequencing of steps, mirroring the Go idiom of returning early on a
non-nil error; traces concatenate in program order. -/
def Step.seq (s : Step α) (f : Host → α → Step β) : Step β :=
  match s with
  | (h, t, .ok a) =>
      match f h a with
      | (h', t', r) => (h', t ++ t', r)
  | (h, t, .err e) => (h, t, .err e)
  | (h, t, .panic) => (h, t, .panic)

/-! ### Container primitives (one runtime CLI invocation each) -/

def dockerPull (h : Host) (image : String) : Step String :=
  let c := Cmd.pull image
  if h.failsOn c then (h, [c], .err "pull failed")
  else match alkup h.registry image with
    | none => (h, [c], .err "pull: image not found")
    | some digest => ({ h with images := alset h.images image digest }, [c], .ok "")

def dockerImagesId (h : Host) (image : String) : Step String :=
  let c := Cmd.images image
  if h.failsOn c then (h, [c], .err "images failed")
  else (h, [c], .ok ((alkup h.images image).getD ""))

def dockerPs (h : Host) (network : String) : Step (List String) :=
  let c := Cmd.ps network
  if h.failsOn c then (h, [c], .err "ps failed")
  else (h, [c], .ok (idsOnNetwork h.containers network))

def dockerInspect (h : Host) (cid : String) : Step Container :=
  let c := Cmd.inspect cid
  if h.failsOn c then (h, [c], .err "inspect failed")
  else match findContainer h cid with
    | some k => (h, [c], .ok k)
    | none => (h, [c], .err "no such container")

/-- Structural mirror of strings.TrimSpace restricted to ASCII whitespace,
kept kernel-evaluable (the library String.trimmed does not reduce in the
kernel). -/
def trimCharsL : List Char → List Char
  | [] => []
  | c :: cs =>
      if c = ' ' ∨ c = '\t' ∨ c = '\n' ∨ c = '\r' then trimCharsL cs else c :: cs

def trimChars (l : List Char) : List Char :=
  (trimCharsL (trimCharsL l.reverse).reverse)

def String.trimmed (s : String) : String := String.mk (trimChars s.data)

def dockerInspectHealth (h : Host) (container : String) : Step String :=
  let c := Cmd.inspectHealth container
  if h.failsOn c then (h, [c], .err "inspect failed")
  else match findContainer h container with
    | none => (h, [c], .err "no such container")
    | some _ => ({ h with clock := h.clock + 1 }, [c], .ok (h.healthAt container h.clock))

def dockerRun (h : Host) (svc : Service) (network suffix hash : String) : Step Unit :=
  let c := Cmd.run svc network suffix hash
  let nm := svc.name ++ suffix
  if h.failsOn c then (h, [c], .err "run failed")
  else if nameTaken h nm then (h, [c], .err "container name already in use")
  else if !(h.networks.contains network) then (h, [c], .err "network not found")
  else match alkup h.images svc.image with
    | none => (h, [c], .err "no such image")
    | some digest =>
        let k : Container :=
          { id := "cid-" ++ nm, name := nm, image := digest,
            labels := [("aerie.config-hash", hash)],
            nets := [(network, [nm])], running := true }
        ({ h with containers := h.containers ++ [k] }, [c], .ok ())

def dockerStop (h : Host) (ref : String) : Step Unit :=
  let c := Cmd.stop ref
  if h.failsOn c then (h, [c], .err "stop failed")
  else match findContainer h ref with
    | none => (h, [c], .err "no such container")
    | some _ =>
        let cs := h.containers.map (fun k => if k.id == ref || k.name == ref then { k with running := false } else k)
        ({ h with containers := cs }, [c], .ok ())

def dockerRm (h : Host) (ref : String) : Step Unit :=
  let c := Cmd.rm ref
  if h.failsOn c then (h, [c], .err "rm failed")
  else match findContainer h ref with
    | none => (h, [c], .err "no such container")
    | some k =>
        if k.running then (h, [c], .err "container is running")
        else
          let cs := h.containers.filter (fun k' => !(k'.id == ref || k'.name == ref))
          ({ h with containers := cs }, [c], .ok ())

def dockerRmForce (h : Host) (ref : String) : Step Unit :=
  let c := Cmd.rmForce ref
  if h.failsOn c then (h, [c], .err "rm -f failed")
  else match findContainer h ref with
    | none => (h, [c], .err "no such container")
    | some _ =>
        let cs := h.containers.filter (fun k' => !(k'.id == ref || k'.name == ref))
        ({ h with containers := cs }, [c], .ok ())

def dockerRename (h : Host) (src dst : String) : Step Unit :=
  let c := Cmd.rename src dst
  if h.failsOn c then (h, [c], .err "rename failed")
  else match findContainer h src with
    | none => (h, [c], .err "no such container")
    | some _ =>
        if nameTaken h dst then (h, [c], .err "name already in use")
        else
          let cs := h.containers.map (fun k => if k.id == src || k.name == src then { k with name := dst } else k)
          ({ h with containers := cs }, [c], .ok ())

def dockerNetConnect (h : Host) (al network ref : String) : Step Unit :=
  let c := Cmd.netConnect al network ref
  if h.failsOn c then (h, [c], .err "network connect failed")
  else if !(h.networks.contains network) then (h, [c], .err "no such network")
  else match findContainer h ref with
    | none => (h, [c], .err "no such container")
    | some k =>
        if (alkup k.nets network).isSome then (h, [c], .err "already connected")
        else
          let cs := h.containers.map (fun k' => if k'.id == k.id then { k' with nets := k'.nets ++ [(network, [al])] } else k')
          ({ h with containers := cs }, [c], .ok ())

def dockerNetDisconnect (h : Host) (network ref : String) : Step Unit :=
  let c := Cmd.netDisconnect network ref
  if h.failsOn c then (h, [c], .err "network disconnect failed")
  else match findContainer h ref with
    | none => (h, [c], .err "no such container")
    | some k =>
        if (alkup k.nets network).isSome then
          let cs := h.containers.map (fun k' => if k'.id == k.id then { k' with nets := k'.nets.filter (fun p => p.1 != network) } else k')
          ({ h with containers := cs }, [c], .ok ())
        else (h, [c], .err "not connected")

def dockerNetworkLs (h : Host) : Step (List String) :=
  if h.failsOn Cmd.netLs then (h, [Cmd.netLs], .err "network ls failed")
  else (h, [Cmd.netLs], .ok h.networks)

def dockerNetworkCreate (h : Host) (network : String) : Step Unit :=
  let c := Cmd.netCreate network
  if h.failsOn c then (h, [c], .err "network create failed")
  else if h.networks.contains network then (h, [c], .err "network exists")
  else ({ h with networks := h.networks ++ [network] }, [c], .ok ())

def dockerVolumeInspect (h : Host) (volume : String) : Step Unit :=
  let c := Cmd.volInspect volume
  if h.failsOn c then (h, [c], .err "volume inspect failed")
  else if h.volumes.contains volume then (h, [c], .ok ())
  else (h, [c], .err "no such volume")

def dockerVolumeCreate (h : Host) (volume : String) : Step Unit :=
  let c := Cmd.volCreate volume
  if h.failsOn c then (h, [c], .err "volume create failed")
  else if h.volumes.contains volume then (h, [c], .ok ())
  else ({ h with volumes := h.volumes ++ [volume] }, [c], .ok ())

/-- Engine-side time.Sleep, recorded as a trace event (it cannot fail). -/
def sleepEv (h : Host) (ns : Int) : Step Unit := (h, [Cmd.sleep ns], .ok ())

def execMkdir (h : Host) (path : String) : Step Unit :=
  if h.failsOn (Cmd.mkdir path) then (h, [Cmd.mkdir path], .err "mkdir failed")
  else (h, [Cmd.mkdir path], .ok ())

def execEchoHome (h : Host) : Step String :=
  if h.failsOn Cmd.echoHome then (h, [Cmd.echoHome], .err "sh failed")
  else (h, [Cmd.echoHome], .ok h.homeDir)

def execCopyTo (h : Host) (dst : String) : Step Unit :=
  if h.failsOn (Cmd.copyTo dst) then (h, [Cmd.copyTo dst], .err "copy failed")
  else (h, [Cmd.copyTo dst], .ok ())

/-! ## Proxy config materializer (pkg/proxy GenerateNginxConfig)

The html/template output with every tab already replaced by four spaces
(the Go code ends with strings.ReplaceAll(s, tab, four spaces)); template
actions escape interpolated values as html/template does in text context.
-/

def strJoin : List String → String
  | [] => ""
  | s :: rest => s ++ strJoin rest

def htmlEscapeChar (c : Char) : List Char :=
  if c = '&' then "&amp;".data
  else if c = '<' then "&lt;".data
  else if c = '>' then "&gt;".data
  else if c = '"' then "&#34;".data
  else if c = Char.ofNat 39 then "&#39;".data
  else [c]

def htmlEscape (s : String) : String :=
  String.mk ((s.data.map htmlEscapeChar).flatten)

/-- The upstream block the template emits for a service, pointing the
upstream at service_name:service_port. -/
def upstreamFor (s : Service) : String :=
  "upstream " ++ htmlEscape s.name ++ " \x7b\n        server " ++
    htmlEscape s.name ++ ":" ++ toString s.port ++ ";\n    \x7d"

def upstreamBlock (s : Service) : String :=
  "\n    " ++ upstreamFor s

def locationBlock (serviceName : String) (r : Route) : String :=
  "\n        location " ++ htmlEscape r.path ++ " \x7b" ++
  (if r.strip then
      "\n            rewrite ^" ++ htmlEscape r.path ++ "(.*)$ /$1 break;"
    else "") ++
  "\n            resolver 127.0.0.11 valid=1s;\n            set $service " ++
    htmlEscape serviceName ++
    ";\n            proxy_pass http://$service;\n        \x7d"

def GenerateNginxConfig (cfg : Config) : String :=
  let d := htmlEscape (if cfg.project.domain == "" then "localhost" else cfg.project.domain)
  strJoin (cfg.services.map upstreamBlock) ++
  "\n\n    server \x7b\n        listen 80;\n        server_name " ++ d ++
  ";\n        return 301 https://$server_name$request_uri;\n    \x7d\n\n    server \x7b\n        listen 443 ssl;\n        http2 on;\n        server_name " ++ d ++
  ";\n\n        ssl_certificate /etc/nginx/ssl/" ++ d ++
  ".crt;\n        ssl_certificate_key /etc/nginx/ssl/" ++ d ++
  ".key;\n        ssl_protocols TLSv1.2 TLSv1.3;\n        ssl_prefer_server_ciphers on;" ++
  strJoin (cfg.services.map (fun s => strJoin (s.routes.map (locationBlock s.name)))) ++
  "\n    \x7d\n"

/-! ## Reconciliation engine (pkg/deployment)

Each Deployment method becomes a function Host → Step α issuing the same
runtime commands in the same order and aborting on the first failure.
Error-message wrapping (fmt.Errorf chains) is elided; only the ok / err /
panic outcome is modelled.
-/

def newContainerSuffix : String := "_new"

/-- docker run argument list exactly as startContainer assembles it. -/
def runArgsRender (svc : Service) (network suffix hash : String) : List String :=
  ["run", "-d", "--name", svc.name ++ suffix, "--network", network,
   "--network-alias", svc.name ++ suffix] ++
  (svc.envVars.map (fun e => ["-e", EnvVar.name e ++ "=" ++ EnvVar.value e])).flatten ++
  (svc.volumes.map (fun v => ["-v", v])).flatten ++
  (match svc.healthCheck with
   | some hc =>
      ["--health-cmd",
       "curl -f http://localhost:" ++ toString svc.port ++ hc.path ++ " || exit 1",
       "--health-interval", toString (hc.interval / 1000000000) ++ "s",
       "--health-retries", toString hc.retries,
       "--health-timeout", toString (hc.timeout / 1000000000) ++ "s"]
   | none => []) ++
  (svc.forwards.map (fun f => ["-p", f])).flatten ++
  ["--label", "aerie.config-hash=" ++ hash] ++
  [svc.image]

def pullImage (h : Host) (imageName : String) : Step String :=
  Step.seq (dockerPull h imageName) (fun h1 _ => dockerImagesId h1 imageName)

def startContainer (h : Host) (svc : Service) (network suffix : String) : Step Unit :=
  dockerRun h svc network suffix (ServiceHash svc)

/-- Loop body of performHealthChecks: for i := 0; i < retries; i++ poll the
health status, return nil as soon as it reads healthy, sleep the declared
interval between polls. -/
def healthLoop (container : String) (chk : HealthCheck) : Host → Nat → Step Unit
  | h, 0 => (h, [], .err "container failed to become healthy")
  | h, fuel + 1 =>
    match dockerInspectHealth h container with
    | (h1, t1, .ok out) =>
        if out.trimmed == "healthy" then (h1, t1, .ok ())
        else
          match healthLoop container chk h1 fuel with
          | (h2, t2, r) => (h2, t1 ++ [Cmd.sleep chk.interval] ++ t2, r)
    | (h1, t1, .err _) =>
        match healthLoop container chk h1 fuel with
        | (h2, t2, r) => (h2, t1 ++ [Cmd.sleep chk.interval] ++ t2, r)
    | (h1, t1, .panic) => (h1, t1, .panic)

/-- performHealthChecks dereferences the healthCheck pointer in the loop
condition without a nil check: a nil health check is a runtime panic before
any command is issued. -/
def performHealthChecks (h : Host) (container : String) (hc : Option HealthCheck) : Step Unit :=
  match hc with
  | none => (h, [], .panic)
  | some chk => healthLoop container chk h ((HealthCheck.retries chk).toNat)

/-- Scan loop of getContainerInfo: inspect each id from docker ps, skip
inspect failures, return the first container carrying the service alias on
the network. -/
def inspectLoop (service network : String) : Host → List String → Step Container
  | h, [] => (h, [], .err ("no container found with alias " ++ service ++ " in network " ++ network))
  | h, cid :: rest =>
    match dockerInspect h cid with
    | (h1, t1, .ok c) =>
        if hasAlias c network service then (h1, t1, .ok c)
        else
          match inspectLoop service network h1 rest with
          | (h2, t2, r) => (h2, t1 ++ t2, r)
    | (h1, t1, .err _) =>
        match inspectLoop service network h1 rest with
        | (h2, t2, r) => (h2, t1 ++ t2, r)
    | (h1, t1, .panic) => (h1, t1, .panic)

def getContainerInfo (h : Host) (service network : String) : Step Container :=
  Step.seq (dockerPs h network) (fun h1 ids => inspectLoop service network h1 ids)

def getContainerID (h : Host) (service network : String) : Step String :=
  Step.seq (getContainerInfo h service network) (fun h1 info => (h1, [], .ok info.id))

def switchTraffic (h : Host) (service network : String) : Step String :=
  let newContainer := service ++ newContainerSuffix
  Step.seq (getContainerID h service network) (fun h1 oldContainer =>
    Step.seq (dockerNetDisconnect h1 network newContainer) (fun h2 _ =>
      Step.seq (dockerNetConnect h2 service network newContainer) (fun h3 _ =>
        Step.seq (sleepEv h3 1000000000) (fun h4 _ =>
          Step.seq (dockerNetDisconnect h4 network oldContainer) (fun h5 _ =>
            (h5, [], .ok oldContainer))))))

def cleanup (h : Host) (oldContID service : String) : Step Unit :=
  Step.seq (dockerStop h oldContID) (fun h1 _ =>
    Step.seq (dockerRm h1 oldContID) (fun h2 _ =>
      dockerRename h2 (service ++ newContainerSuffix) service))

def InstallService (h : Host) (svc : Service) (network : String) : Step Unit :=
  Step.seq (pullImage h svc.image) (fun h1 _ =>
    Step.seq (startContainer h1 svc network "") (fun h2 _ =>
      performHealthChecks h2 svc.name svc.healthCheck))

/-- The tail of UpdateService after the shadow container has been started:
health wait, rollback of the shadow on an unhealthy wait, otherwise the
traffic switch followed by the cleanup. -/
def updateAfterStart (h2 : Host) (svc : Service) (network : String) : Step Unit :=
  match performHealthChecks h2 (svc.name ++ newContainerSuffix) svc.healthCheck with
  | (h3, t3, .ok _) =>
      (match Step.seq (switchTraffic h3 svc.name network)
               (fun h4 oldContID => cleanup h4 oldContID svc.name) with
       | (h5, t5, r) => (h5, t3 ++ t5, r))
  | (h3, t3, .err e) =>
      (match dockerRmForce h3 (svc.name ++ newContainerSuffix) with
       | (h4, t4, .ok _) =>
          (h4, t3 ++ t4, .err ("update failed: new container is unhealthy: " ++ e))
       | (h4, t4, .err e2) =>
          (h4, t3 ++ t4, .err ("update failed: new container is unhealthy and cleanup failed: " ++ e2))
       | (h4, t4, .panic) => (h4, t3 ++ t4, .panic))
  | (h3, t3, .panic) => (h3, t3, .panic)

def UpdateService (h : Host) (svc : Service) (network : String) : Step Unit :=
  Step.seq (pullImage h svc.image) (fun h1 _ =>
    Step.seq (startContainer h1 svc network newContainerSuffix) (fun h2 _ =>
      updateAfterStart h2 svc network))

def serviceChanged (h : Host) (svc : Service) (network : String) : Step Bool :=
  Step.seq (getContainerInfo h svc.name network) (fun h1 info =>
    (h1, [], .ok (decide ((alkup info.labels "aerie.config-hash").getD "" ≠ ServiceHash svc))))

def deployService (h : Host) (svc : Service) (network : String) : Step Unit :=
  Step.seq (pullImage h svc.image) (fun h1 hash =>
    match getContainerInfo h1 svc.name network with
    | (h2, t2, .ok info) =>
        if hash ≠ info.image then
          match UpdateService h2 svc network with
          | (h3, t3, r) => (h3, t2 ++ t3, r)
        else
          match serviceChanged h2 svc network with
          | (h3, t3, .ok changed) =>
              if changed then
                match UpdateService h3 svc network with
                | (h4, t4, r) => (h4, t2 ++ t3 ++ t4, r)
              else (h3, t2 ++ t3, .ok ())
          | (h3, t3, .err e) => (h3, t2 ++ t3, .err e)
          | (h3, t3, .panic) => (h3, t2 ++ t3, .panic)
    | (h2, t2, .err _) =>
        match InstallService h2 svc network with
        | (h3, t3, r) => (h3, t2 ++ t3, r)
    | (h2, t2, .panic) => (h2, t2, .panic))

def networkExists (h : Host) (network : String) : Step Bool :=
  Step.seq (dockerNetworkLs h) (fun h1 nets => (h1, [], .ok (nets.contains network)))

def createNetwork (h : Host) (network : String) : Step Unit :=
  Step.seq (networkExists h network) (fun h1 b =>
    if b then (h1, [], .ok ()) else dockerNetworkCreate h1 network)

def createVolume (h : Host) (volume : String) : Step Unit :=
  match dockerVolumeInspect h volume with
  | (h1, t1, .ok _) => (h1, t1, .ok ())
  | (h1, t1, .err _) =>
      (match dockerVolumeCreate h1 volume with
       | (h2, t2, r) => (h2, t1 ++ t2, r))
  | (h1, t1, .panic) => (h1, t1, .panic)

def projectFolder (h : Host) (projectName : String) : Step String :=
  Step.seq (execEchoHome h) (fun h1 home =>
    (h1, [], .ok (home.trimmed ++ "/projects/" ++ projectName)))

def makeProjectFolder (h : Host) (projectName : String) : Step Unit :=
  Step.seq (projectFolder h projectName) (fun h1 path => execMkdir h1 path)

def prepareProjectFolder (h : Host) (project : String) : Step String :=
  Step.seq (makeProjectFolder h project) (fun h1 _ => projectFolder h1 project)

def prepareNginxConfig (h : Host) (cfg : Config) (projectPath : String) : Step String :=
  let _nginxConfig := (GenerateNginxConfig cfg).trimmed
  let configPath := projectPath ++ "/nginx"
  Step.seq (execMkdir h configPath) (fun h1 _ =>
    Step.seq (execCopyTo h1 (configPath ++ "/default.conf")) (fun h2 _ =>
      (h2, [], .ok configPath)))

/-- GenerateNginxConfig mutates cfg.Project.Domain to localhost when it is
empty; StartProxy reads the domain afterwards, so it sees the default. -/
def effectiveConfig (cfg : Config) : Config :=
  if cfg.project.domain == "" then
    { cfg with project := { cfg.project with domain := "localhost" } }
  else cfg

/-- The synthetic proxy service StartProxy constructs in code. -/
def proxyService (cfg : Config) (projectPath configPath : String) : Service :=
  { name := "proxy",
    image := "yarlson/zero-nginx:latest",
    port := 80,
    healthCheck := some { path := "/", interval := 1000000000, timeout := 1000000000, retries := 30 },
    routes := [],
    volumes := [projectPath ++ "/:/etc/nginx/ssl", configPath ++ ":/etc/nginx/conf.d"],
    forwards := ["80:80", "443:443"],
    envVars := [{ name := "DOMAIN", value := (effectiveConfig cfg).project.domain },
                { name := "EMAIL", value := (effectiveConfig cfg).project.email }] }

def StartProxy (h : Host) (project : String) (cfg : Config) (network : String) : Step Unit :=
  Step.seq (prepareProjectFolder h project) (fun h1 projectPath =>
    Step.seq (prepareNginxConfig h1 cfg projectPath) (fun h2 configPath =>
      deployService h2 (proxyService cfg projectPath configPath) network))

def volumeLoop : Host → List String → Step Unit
  | h, [] => (h, [], .ok ())
  | h, v :: rest =>
      Step.seq (createVolume h v) (fun h1 _ => volumeLoop h1 rest)

def deployLoop (network : String) : Host → List Service → Step Unit
  | h, [] => (h, [], .ok ())
  | h, svc :: rest =>
      Step.seq (deployService h svc network) (fun h1 _ => deployLoop network h1 rest)

def Deploy (h : Host) (cfg : Config) (network : String) : Step Unit :=
  Step.seq (createNetwork h network) (fun h1 _ =>
    Step.seq (volumeLoop h1 cfg.volumes) (fun h2 _ =>
      Step.seq (deployLoop network h2 cfg.services) (fun h3 _ =>
        StartProxy h3 cfg.project.name cfg network)))

/-! ## runCommand and the two executors (C10)

Deployment.runCommand receives (io.Reader, error) from the executor and
calls io.ReadAll on the reader before looking at the error.  The reader is
modelled as Option String, with none for a nil reader; io.ReadAll on a nil
reader dereferences a nil interface and panics.
-/

inductive RunOutcome where
  | ok (out : String)
  | err (msg : String) (out : String)
  | panicked
deriving DecidableEq, Repr

/-- Deployment.runCommand: read the reader unconditionally, then trim and
attach the executor's error if there was one. -/
def runCommandGo (res : Option String × Option String) : RunOutcome :=
  match res.1 with
  | none => .panicked
  | some out =>
      match res.2 with
      | some e => .err ("command failed: " ++ e) out.trimmed
      | none => .ok out.trimmed

/-- The local executor: cmd.CombinedOutput with a non-nil error (any
non-zero exit) makes RunCommand return (nil, error). -/
def localExecRun (exitOk : Bool) (out : String) : Option String × Option String :=
  if exitOk then (some out, none) else (none, some "command execution failed")

inductive SshPhase where
  | connectFailed
  | sessionFailed
  | startFailed
  | ran (out : String) (exitOk : Bool)
deriving DecidableEq, Repr

/-- The SSH executor: RunCommand returns a nil reader when the connection
cannot be (re-)established, the session cannot be created, or the command
cannot be started; once started, it returns the output buffer even when
the command fails. -/
def sshExecRun : SshPhase → Option String × Option String
  | .connectFailed => (none, some "failed to re-establish SSH connection after 3 attempts")
  | .sessionFailed => (none, some "unable to create session")
  | .startFailed => (none, some "failed to start command")
  | .ran out exitOk => (some out, if exitOk then none else some "command failed")

/-! ## Predicates on commands, scan functions and concrete scenarios -/

def SortedB (le : α → α → Bool) (l : List α) : Prop :=
  l.Pairwise (fun a b => le a b = true)

def occursIn (pat s : String) : Prop := ∃ a b, s = a ++ pat ++ b

/-- Commands the swap and cleanup phases use: stop, remove, rename and the
network commands (rm -f is listed separately, it is the shadow rollback). -/
def isSwapCmd : Cmd → Bool
  | .stop _ => true
  | .rm _ => true
  | .rename _ _ => true
  | .netConnect _ _ _ => true
  | .netDisconnect _ _ => true
  | .netCreate _ => true
  | _ => false

/-- Commands that mutate host state. -/
def isMutatingCmd : Cmd → Bool
  | .run _ _ _ _ => true
  | .stop _ => true
  | .rm _ => true
  | .rmForce _ => true
  | .rename _ _ => true
  | .netConnect _ _ _ => true
  | .netDisconnect _ _ => true
  | .netCreate _ => true
  | .volCreate _ => true
  | _ => false

/-- Prerequisite-phase commands of the driver. -/
def isPrereqCmd : Cmd → Bool
  | .netLs => true
  | .netCreate _ => true
  | .volInspect _ => true
  | .volCreate _ => true
  | _ => false

/-- Commands a health wait issues. -/
def isHealthCmd (container : String) : Cmd → Bool
  | .inspectHealth n => n == container
  | .sleep _ => true
  | _ => false

/-- Commands the alias scan issues. -/
def isScanCmd (network : String) : Cmd → Bool
  | .ps n => n == network
  | .inspect _ => true
  | _ => false

/-- Pure mirror of the result of inspectLoop over a fixed container set. -/
def scanFind (conts : List Container) (service network : String) : List String → Option Container
  | [] => none
  | cid :: rest =>
      match conts.find? (fun c => c.id == cid || c.name == cid) with
      | some c =>
          if hasAlias c network service then some c
          else scanFind conts service network rest
      | none => scanFind conts service network rest

/-- Pure mirror of the trace of inspectLoop over a fixed container set. -/
def scanCmds (conts : List Container) (service network : String) : List String → List Cmd
  | [] => []
  | cid :: rest =>
      Cmd.inspect cid ::
        (match conts.find? (fun c => c.id == cid || c.name == cid) with
         | some c =>
             if hasAlias c network service then []
             else scanCmds conts service network rest
         | none => scanCmds conts service network rest)

def Res.isErr {α : Type} : Res α → Bool
  | .err _ => true
  | _ => false

/-! ### Concrete scenario data used by witnesses and counterexamples -/

def chkW : HealthCheck :=
  { path := "/", interval := 1000000000, timeout := 1000000000, retries := 5 }

def svcWeb : Service :=
  { name := "web", image := "nginx:1.20", port := 80,
    healthCheck := some chkW,
    routes := [{ path := "/", strip := false }],
    volumes := [], forwards := [], envVars := [] }

def svcWebNoHC : Service := { svcWeb with healthCheck := none }

def contWebOld : Container :=
  { id := "oldid", name := "web", image := "sha256:old",
    labels := [("aerie.config-hash", "H1")],
    nets := [("net", ["web"])], running := true }

def hostBase : Host :=
  { containers := [contWebOld], networks := ["net"], volumes := [],
    images := [],
    registry := [("nginx:1.20", "sha256:new"), ("yarlson/zero-nginx:latest", "sha256:prox")],
    homeDir := "/home/op",
    healthAt := fun _ _ => "healthy", clock := 0, failures := [] }

def hostUnhealthy : Host := { hostBase with healthAt := fun _ _ => "starting" }

def hostConnectFail : Host :=
  { hostBase with failures := [Cmd.netConnect "web" "net" "web_new"] }

def contWebSteady : Container :=
  { id := "oldid", name := "web", image := "sha256:new",
    labels := [("aerie.config-hash", ServiceHash svcWeb)],
    nets := [("net", ["web"])], running := true }

def hostSteady : Host := { hostBase with containers := [contWebSteady] }

def cfgW : Config :=
  { project := { name := "proj", domain := "example.com", email := "a@b.co" },
    services := [svcWeb], volumes := ["vol1"] }

def hostDeploy : Host := { hostSteady with volumes := ["vol1"] }

def hostFresh : Host := { hostBase with containers := [] }

def sC4 : Service :=
  { name := "web", image := "img:1", port := 80, healthCheck := none,
    routes := [], volumes := [], forwards := [],
    envVars := [{ name := "A", value := "B C" }, { name := "A B", value := "C" }] }

def sC4W : Service :=
  { name := "web", image := "img:1", port := 80, healthCheck := none,
    routes := [], volumes := ["a:x", "b:y"], forwards := [],
    envVars := [{ name := "P", value := "1" }, { name := "Q", value := "2" }] }

def svcC9 : Service :=
  { name := "api", image := "api:latest", port := 8080, healthCheck := none,
    routes := [], volumes := [], forwards := [], envVars := [] }

def cfgC9 : Config :=
  { project := { name := "p", domain := "example.com", email := "a@b.co" },
    services := [svcC9], volumes := [] }

/-- The two creation commands of the prerequisite phase. -/
def isCreateCmd : Cmd → Bool
  | .netCreate _ => true
  | .volCreate _ => true
  | _ => false

/-! ## Sorting lemmas for the fingerprint canonicalisation -/

theorem insertByLe_perm (le : α → α → Bool) (x : α) (l : List α) :
    (insertByLe le x l).Perm (x :: l) := by
  induction l with
  | nil => simp [insertByLe]
  | cons y ys ih =>
    simp only [insertByLe]
    by_cases hxy : le x y
    · simp [hxy]
    · simp only [hxy, if_neg, Bool.false_eq_true, if_false]
      exact (ih.cons y).trans (List.Perm.swap x y ys)

theorem insertionSortByLe_perm (le : α → α → Bool) (l : List α) :
    (insertionSortByLe le l).Perm l := by
  induction l with
  | nil => simp [insertionSortByLe]
  | cons x xs ih =>
    simp only [insertionSortByLe]
    exact (insertByLe_perm le x (insertionSortByLe le xs)).trans (ih.cons x)

theorem insertByLe_sorted (le : α → α → Bool)
    (htot : ∀ a b, le a b = true ∨ le b a = true)
    (htrans : ∀ a b c, le a b = true → le b c = true → le a c = true)
    (x : α) (l : List α) (hl : SortedB le l) : SortedB le (insertByLe le x l) := by
  induction l with
  | nil => simp [insertByLe, SortedB]
  | cons y ys ih =>
    simp only [insertByLe]
    rcases List.pairwise_cons.mp hl with ⟨hy, hys⟩
    by_cases hxy : le x y
    · simp only [hxy, if_true]
      refine List.pairwise_cons.mpr ⟨?_, hl⟩
      intro b hb
      rcases List.mem_cons.mp hb with rfl | hb'
      · exact hxy
      · exact htrans x y b hxy (hy _ hb')
    · simp only [hxy, Bool.false_eq_true, if_false]
      refine List.pairwise_cons.mpr ⟨?_, ih hys⟩
      intro b hb
      have hmem := (insertByLe_perm le x ys).mem_iff.mp hb
      rcases List.mem_cons.mp hmem with hbx | hbys
      · rcases htot x y with h1 | h1
        · exact absurd h1 hxy
        · rw [hbx]
          exact h1
      · exact hy _ hbys

theorem insertionSortByLe_sorted (le : α → α → Bool)
    (htot : ∀ a b, le a b = true ∨ le b a = true)
    (htrans : ∀ a b c, le a b = true → le b c = true → le a c = true)
    (l : List α) : SortedB le (insertionSortByLe le l) := by
  induction l with
  | nil => simp [insertionSortByLe, SortedB]
  | cons x xs ih =>
    simpa [insertionSortByLe] using insertByLe_sorted le htot htrans x _ ih

theorem sortedB_perm_eq (le : α → α → Bool) :
    ∀ (l₁ l₂ : List α), l₁.Perm l₂ → SortedB le l₁ → SortedB le l₂ →
      (∀ a ∈ l₁, ∀ b ∈ l₁, le a b = true → le b a = true → a = b) → l₁ = l₂
  | [], l₂, hperm, _, _, _ => (List.Perm.nil_eq hperm).symm ▸ rfl
  | x :: xs, [], hperm, _, _, _ => absurd hperm.symm (by simp)
  | x :: xs, y :: ys, hperm, hs₁, hs₂, hanti => by
    have hxy : x = y := by
      by_contra hne
      have hxmem : x ∈ y :: ys := hperm.mem_iff.mp (by simp)
      have hymem : y ∈ x :: xs := hperm.mem_iff.mpr (by simp)
      have hx2 : x ∈ ys := by
        rcases List.mem_cons.mp hxmem with h | h
        · exact absurd h hne
        · assumption
      have hy2 : y ∈ xs := by
        rcases List.mem_cons.mp hymem with h | h
        · exact absurd h.symm hne
        · assumption
      have hle1 : le x y = true := (List.pairwise_cons.mp hs₁).1 y hy2
      have hle2 : le y x = true := (List.pairwise_cons.mp hs₂).1 x hx2
      exact hne (hanti x (by simp) y (List.mem_cons_of_mem x hy2) hle1 hle2)
    subst hxy
    have htail : xs.Perm ys := hperm.cons_inv
    have := sortedB_perm_eq le xs ys htail
      (List.pairwise_cons.mp hs₁).2 (List.pairwise_cons.mp hs₂).2
      (fun a ha b hb => hanti a (List.mem_cons_of_mem x ha) b (List.mem_cons_of_mem x hb))
    rw [this]

theorem insertionSortByLe_eq_of_perm (le : α → α → Bool)
    (htot : ∀ a b, le a b = true ∨ le b a = true)
    (htrans : ∀ a b c, le a b = true → le b c = true → le a c = true)
    (l₁ l₂ : List α) (hperm : l₁.Perm l₂)
    (hanti : ∀ a ∈ l₁, ∀ b ∈ l₁, le a b = true → le b a = true → a = b) :
    insertionSortByLe le l₁ = insertionSortByLe le l₂ := by
  refine sortedB_perm_eq le _ _ ?_ (insertionSortByLe_sorted le htot htrans l₁)
    (insertionSortByLe_sorted le htot htrans l₂) ?_
  · exact (insertionSortByLe_perm le l₁).trans (hperm.trans (insertionSortByLe_perm le l₂).symm)
  · intro a ha b hb
    exact hanti a ((insertionSortByLe_perm le l₁).mem_iff.mp ha)
      b ((insertionSortByLe_perm le l₁).mem_iff.mp hb)

theorem charToNat_inj {a b : Char} (h : Char.toNat a = Char.toNat b) : a = b := by
  have h0 := Char.ofNat_toNat a
  rw [← h0, h, Char.ofNat_toNat]

theorem lexLe_total : ∀ (as bs : List Char), lexLe as bs = true ∨ lexLe bs as = true := by
  intro as
  induction as with
  | nil => intro bs; exact Or.inl rfl
  | cons a as ih =>
    intro bs
    cases bs with
    | nil => exact Or.inr rfl
    | cons b bs =>
      by_cases h1 : Char.toNat a < Char.toNat b
      · left
        simp [lexLe, h1]
      · by_cases h2 : Char.toNat b < Char.toNat a
        · right
          simp [lexLe, h2]
        · rcases ih bs with h | h
          · left
            simp [lexLe, h1, h2, h]
          · right
            simp [lexLe, h1, h2, h]

theorem lexLe_trans : ∀ (as bs cs : List Char), lexLe as bs = true →
    lexLe bs cs = true → lexLe as cs = true := by
  intro as
  induction as with
  | nil => intro bs cs _ _; rfl
  | cons a as ih =>
    intro bs cs hab hbc
    cases bs with
    | nil => simp [lexLe] at hab
    | cons b bs =>
      cases cs with
      | nil => simp [lexLe] at hbc
      | cons c cs =>
        simp only [lexLe] at hab hbc ⊢
        by_cases h1 : Char.toNat a < Char.toNat b
        · by_cases h2 : Char.toNat b < Char.toNat c
          · have h5 : Char.toNat a < Char.toNat c := Nat.lt_trans h1 h2
            simp [h5]
          · by_cases h3 : Char.toNat c < Char.toNat b
            · rw [if_neg h2, if_pos h3] at hbc
              cases hbc
            · have hbceq : Char.toNat b = Char.toNat c :=
                Nat.le_antisymm (Nat.le_of_not_lt h3) (Nat.le_of_not_lt h2)
              have h5 : Char.toNat a < Char.toNat c := hbceq ▸ h1
              simp [h5]
        · by_cases h4 : Char.toNat b < Char.toNat a
          · rw [if_neg h1, if_pos h4] at hab
            cases hab
          · have habeq : Char.toNat a = Char.toNat b :=
              Nat.le_antisymm (Nat.le_of_not_lt h4) (Nat.le_of_not_lt h1)
            rw [if_neg h1, if_neg h4] at hab
            by_cases h2 : Char.toNat b < Char.toNat c
            · have h5 : Char.toNat a < Char.toNat c := habeq ▸ h2
              simp [h5]
            · by_cases h3 : Char.toNat c < Char.toNat b
              · rw [if_neg h2, if_pos h3] at hbc
                cases hbc
              · rw [if_neg h2, if_neg h3] at hbc
                have h5 : ¬ Char.toNat a < Char.toNat c := by
                  rw [habeq]
                  exact h2
                have h6 : ¬ Char.toNat c < Char.toNat a := by
                  rw [habeq] at h4
                  intro hq
                  exact h4 (by omega)
                rw [if_neg h5, if_neg h6]
                exact ih bs cs hab hbc

theorem lexLe_antisymm : ∀ (as bs : List Char), lexLe as bs = true →
    lexLe bs as = true → as = bs := by
  intro as
  induction as with
  | nil =>
    intro bs h1 h2
    cases bs with
    | nil => rfl
    | cons b bs => simp [lexLe] at h2
  | cons a as ih =>
    intro bs h1 h2
    cases bs with
    | nil => simp [lexLe] at h1
    | cons b bs =>
      simp only [lexLe] at h1 h2
      by_cases hab : Char.toNat a < Char.toNat b
      · have hh : ¬ Char.toNat b < Char.toNat a := Nat.lt_asymm hab
        rw [if_neg hh, if_pos hab] at h2
        cases h2
      · by_cases hba : Char.toNat b < Char.toNat a
        · rw [if_neg hab, if_pos hba] at h1
          cases h1
        · rw [if_neg hab, if_neg hba] at h1
          rw [if_neg hba, if_neg hab] at h2
          have hc : a = b := charToNat_inj
            (Nat.le_antisymm (Nat.le_of_not_lt hba) (Nat.le_of_not_lt hab))
          rw [hc, ih bs h1 h2]

theorem strLe_total (a b : String) : strLe a b = true ∨ strLe b a = true :=
  lexLe_total a.data b.data

theorem strLe_trans (a b c : String) (h1 : strLe a b = true) (h2 : strLe b c = true) :
    strLe a c = true :=
  lexLe_trans a.data b.data c.data h1 h2

theorem strLe_antisymm (a b : String) (h1 : strLe a b = true) (h2 : strLe b a = true) :
    a = b := by
  have hd := lexLe_antisymm a.data b.data h1 h2
  cases a
  cases b
  exact congrArg String.mk hd

theorem sortStrings_eq_of_perm (l₁ l₂ : List String) (hperm : l₁.Perm l₂) :
    sortStrings l₁ = sortStrings l₂ := by
  refine insertionSortByLe_eq_of_perm _ ?_ ?_ _ _ hperm ?_
  · intro a b
    exact strLe_total a b
  · intro a b c hab hbc
    exact strLe_trans a b c hab hbc
  · intro a _ b _ hab hba
    exact strLe_antisymm a b hab hba

theorem sortEnvVars_eq_of_perm (l₁ l₂ : List EnvVar) (hperm : l₁.Perm l₂)
    (hinj : ∀ a ∈ l₁, ∀ b ∈ l₁, goShowEnvVar a = goShowEnvVar b → a = b) :
    sortEnvVars l₁ = sortEnvVars l₂ := by
  refine insertionSortByLe_eq_of_perm _ ?_ ?_ _ _ hperm ?_
  · intro a b
    exact strLe_total (goShowEnvVar a) (goShowEnvVar b)
  · intro a b c hab hbc
    exact strLe_trans (goShowEnvVar a) (goShowEnvVar b) (goShowEnvVar c) hab hbc
  · intro a ha b hb hab hba
    exact hinj a ha b hb (strLe_antisymm (goShowEnvVar a) (goShowEnvVar b) hab hba)

/-! ## String containment -/

theorem occursIn_append_left (pat s t : String) (hs : occursIn pat s) :
    occursIn pat (t ++ s) := by
  rcases hs with ⟨a, b, rfl⟩
  exact ⟨t ++ a, b, by rw [String.append_assoc, String.append_assoc, String.append_assoc]⟩

theorem occursIn_append_right (pat s t : String) (hs : occursIn pat s) :
    occursIn pat (s ++ t) := by
  rcases hs with ⟨a, b, rfl⟩
  exact ⟨a, b ++ t, by rw [String.append_assoc, String.append_assoc]⟩

theorem occursIn_strJoin {β : Type} (pat : String) (f : β → String) (x : β) :
    ∀ l : List β, x ∈ l → occursIn pat (f x) → occursIn pat (strJoin (l.map f))
  | [], hx, _ => absurd hx (List.not_mem_nil x)
  | y :: ys, hx, hocc => by
    rcases List.mem_cons.mp hx with rfl | hx'
    · exact occursIn_append_right pat _ _ hocc
    · exact occursIn_append_left pat _ _ (occursIn_strJoin pat f x ys hx' hocc)

theorem upstreamBlock_split (s : Service) :
    upstreamBlock s = "\n    " ++ upstreamFor s ++ "" := by
  unfold upstreamBlock
  rw [String.append_empty]

/-- Every declared service contributes an upstream block to the rendered
config, whether or not it has routes. -/
theorem nginx_upstream_of_mem (cfg : Config) (svc : Service)
    (hmem : svc ∈ cfg.services) :
    occursIn (upstreamFor svc) (GenerateNginxConfig cfg) := by
  unfold GenerateNginxConfig
  repeat apply occursIn_append_right
  exact occursIn_strJoin (upstreamFor svc) upstreamBlock svc cfg.services hmem
    ⟨"\n    ", "", upstreamBlock_split svc⟩

/-! ## Basic lemmas about the primitives -/

theorem alkup_alset_self (l : List (String × String)) (k v : String) :
    alkup (alset l k v) k = some v := by
  induction l with
  | nil => simp [alset, alkup]
  | cons p rest ih =>
    rcases p with ⟨k', v'⟩
    by_cases hk : k' == k
    · simp [alset, hk, alkup]
    · simp only [alset, hk, Bool.false_eq_true, if_false]
      simp only [alkup, List.find?] at ih ⊢
      simp [hk, ih]

theorem dockerPull_trace (h : Host) (image : String) :
    (dockerPull h image).2.1 = [Cmd.pull image] := by
  unfold dockerPull
  dsimp only []
  repeat' split
  all_goals rfl

theorem dockerImagesId_trace (h : Host) (image : String) :
    (dockerImagesId h image).2.1 = [Cmd.images image] := by
  unfold dockerImagesId
  dsimp only []
  repeat' split
  all_goals rfl

theorem dockerPs_trace (h : Host) (network : String) :
    (dockerPs h network).2.1 = [Cmd.ps network] := by
  unfold dockerPs
  dsimp only []
  repeat' split
  all_goals rfl

theorem dockerInspect_trace (h : Host) (cid : String) :
    (dockerInspect h cid).2.1 = [Cmd.inspect cid] := by
  unfold dockerInspect
  dsimp only []
  repeat' split
  all_goals rfl

theorem dockerInspect_host (h : Host) (cid : String) :
    (dockerInspect h cid).1 = h := by
  unfold dockerInspect
  dsimp only []
  repeat' split
  all_goals rfl

theorem dockerInspectHealth_trace (h : Host) (container : String) :
    (dockerInspectHealth h container).2.1 = [Cmd.inspectHealth container] := by
  unfold dockerInspectHealth
  dsimp only []
  repeat' split
  all_goals rfl

theorem dockerRun_trace (h : Host) (svc : Service) (network suffix hash : String) :
    (dockerRun h svc network suffix hash).2.1 = [Cmd.run svc network suffix hash] := by
  unfold dockerRun
  dsimp only []
  repeat' split
  all_goals rfl

theorem dockerStop_trace (h : Host) (ref : String) :
    (dockerStop h ref).2.1 = [Cmd.stop ref] := by
  unfold dockerStop
  dsimp only []
  repeat' split
  all_goals rfl

theorem dockerRm_trace (h : Host) (ref : String) :
    (dockerRm h ref).2.1 = [Cmd.rm ref] := by
  unfold dockerRm
  dsimp only []
  repeat' split
  all_goals rfl

theorem dockerRmForce_trace (h : Host) (ref : String) :
    (dockerRmForce h ref).2.1 = [Cmd.rmForce ref] := by
  unfold dockerRmForce
  dsimp only []
  repeat' split
  all_goals rfl

theorem dockerRename_trace (h : Host) (src dst : String) :
    (dockerRename h src dst).2.1 = [Cmd.rename src dst] := by
  unfold dockerRename
  dsimp only []
  repeat' split
  all_goals rfl

theorem dockerNetConnect_trace (h : Host) (al network ref : String) :
    (dockerNetConnect h al network ref).2.1 = [Cmd.netConnect al network ref] := by
  unfold dockerNetConnect
  dsimp only []
  repeat' split
  all_goals rfl

theorem dockerNetDisconnect_trace (h : Host) (network ref : String) :
    (dockerNetDisconnect h network ref).2.1 = [Cmd.netDisconnect network ref] := by
  unfold dockerNetDisconnect
  dsimp only []
  repeat' split
  all_goals rfl

/-! ## Inversion and trace-shape lemmas for composite engine steps -/

theorem Step.seq_ok {α β : Type} {s : Step α} {f : Host → α → Step β} {h' : Host}
    {t : List Cmd} {b : β} (heq : Step.seq s f = (h', t, Res.ok b)) :
    ∃ a, s.2.2 = Res.ok a ∧ t = s.2.1 ++ (f s.1 a).2.1 ∧
      (f s.1 a).1 = h' ∧ (f s.1 a).2.2 = Res.ok b := by
  rcases s with ⟨h1, t1, r1⟩
  cases r1 with
  | ok a =>
    rcases hf : f h1 a with ⟨h2, t2, r2⟩
    unfold Step.seq at heq
    dsimp at heq
    rw [hf] at heq
    injection heq with e1 e2
    injection e2 with e2a e2b
    refine ⟨a, rfl, ?_, ?_, ?_⟩
    · dsimp
      rw [hf]
      exact e2a.symm
    · dsimp
      rw [hf]
      exact e1
    · dsimp
      rw [hf]
      exact e2b
  | err e =>
    unfold Step.seq at heq
    dsimp at heq
    injection heq with e1 e2
    injection e2 with e2a e2b
    cases e2b
  | panic =>
    unfold Step.seq at heq
    dsimp at heq
    injection heq with e1 e2
    injection e2 with e2a e2b
    cases e2b

theorem pullImage_ok_trace (h : Host) (img : String) {out : String}
    (hok : (pullImage h img).2.2 = Res.ok out) :
    (pullImage h img).2.1 = [Cmd.pull img, Cmd.images img] := by
  rcases hU : pullImage h img with ⟨h1, t, r⟩
  rw [hU] at hok
  dsimp at hok
  subst hok
  unfold pullImage at hU
  obtain ⟨a, _, hT, _, _⟩ := Step.seq_ok hU
  rw [dockerPull_trace, dockerImagesId_trace] at hT
  exact hT

theorem startContainer_trace (h : Host) (svc : Service) (network suffix : String) :
    (startContainer h svc network suffix).2.1 =
      [Cmd.run svc network suffix (ServiceHash svc)] := by
  unfold startContainer
  exact dockerRun_trace h svc network suffix (ServiceHash svc)

theorem healthLoop_trace_shape (container : String) (chk : HealthCheck) :
    ∀ (fuel : Nat) (h : Host), ∀ c ∈ (healthLoop container chk h fuel).2.1,
      isHealthCmd container c = true := by
  intro fuel
  induction fuel with
  | zero =>
    intro h c hc
    simp [healthLoop] at hc
  | succ n ih =>
    intro h c hc
    unfold healthLoop at hc
    rcases hq : dockerInspectHealth h container with ⟨h1, t1, r1⟩
    have ht1 : t1 = [Cmd.inspectHealth container] := by
      have := dockerInspectHealth_trace h container
      rw [hq] at this
      exact this
    rw [hq] at hc
    cases r1 with
    | ok out =>
      dsimp at hc
      by_cases htrim : (out.trimmed == "healthy") = true
      · rw [if_pos htrim] at hc
        subst ht1
        rcases List.mem_cons.mp hc with rfl | hfalse
        · simp [isHealthCmd]
        · simp at hfalse
      · rw [if_neg htrim] at hc
        rcases hr : healthLoop container chk h1 n with ⟨h2, t2, r2⟩
        rw [hr] at hc
        dsimp at hc
        subst ht1
        rcases List.mem_append.mp hc with hl | hr2
        · rcases List.mem_append.mp hl with hl1 | hl2
          · rcases List.mem_cons.mp hl1 with rfl | hfalse
            · simp [isHealthCmd]
            · simp at hfalse
          · rcases List.mem_cons.mp hl2 with rfl | hfalse
            · simp [isHealthCmd]
            · simp at hfalse
        · have := ih h1 c
          rw [hr] at this
          exact this hr2
    | err e =>
      dsimp at hc
      rcases hr : healthLoop container chk h1 n with ⟨h2, t2, r2⟩
      rw [hr] at hc
      dsimp at hc
      subst ht1
      rcases List.mem_append.mp hc with hl | hr2
      · rcases List.mem_append.mp hl with hl1 | hl2
        · rcases List.mem_cons.mp hl1 with rfl | hfalse
          · simp [isHealthCmd]
          · simp at hfalse
        · rcases List.mem_cons.mp hl2 with rfl | hfalse
          · simp [isHealthCmd]
          · simp at hfalse
      · have := ih h1 c
        rw [hr] at this
        exact this hr2
    | panic =>
      dsimp at hc
      subst ht1
      rcases List.mem_cons.mp hc with rfl | hfalse
      · simp [isHealthCmd]
      · simp at hfalse

theorem performHealthChecks_trace_shape (h : Host) (container : String)
    (hc : Option HealthCheck) :
    ∀ c ∈ (performHealthChecks h container hc).2.1, isHealthCmd container c = true := by
  cases hc with
  | none =>
    intro c hmem
    simp [performHealthChecks] at hmem
  | some chk =>
    intro c hmem
    exact healthLoop_trace_shape container chk _ h c hmem

theorem inspectLoop_trace_shape (service network : String) :
    ∀ (ids : List String) (h : Host), ∀ c ∈ (inspectLoop service network h ids).2.1,
      ∃ cid, c = Cmd.inspect cid := by
  intro ids
  induction ids with
  | nil =>
    intro h c hc
    simp [inspectLoop] at hc
  | cons cid rest ih =>
    intro h c hc
    unfold inspectLoop at hc
    rcases hq : dockerInspect h cid with ⟨h1, t1, r1⟩
    have ht1 : t1 = [Cmd.inspect cid] := by
      have := dockerInspect_trace h cid
      rw [hq] at this
      exact this
    rw [hq] at hc
    cases r1 with
    | ok k =>
      dsimp at hc
      by_cases halias : hasAlias k network service = true
      · rw [if_pos halias] at hc
        subst ht1
        rcases List.mem_cons.mp hc with rfl | hfalse
        · exact ⟨cid, rfl⟩
        · simp at hfalse
      · rw [if_neg halias] at hc
        rcases hr : inspectLoop service network h1 rest with ⟨h2, t2, r2⟩
        rw [hr] at hc
        dsimp at hc
        subst ht1
        rcases List.mem_append.mp hc with hl | hr2
        · rcases List.mem_cons.mp hl with rfl | hfalse
          · exact ⟨cid, rfl⟩
          · simp at hfalse
        · have := ih h1 c
          rw [hr] at this
          exact this hr2
    | err e =>
      dsimp at hc
      rcases hr : inspectLoop service network h1 rest with ⟨h2, t2, r2⟩
      rw [hr] at hc
      dsimp at hc
      subst ht1
      rcases List.mem_append.mp hc with hl | hr2
      · rcases List.mem_cons.mp hl with rfl | hfalse
        · exact ⟨cid, rfl⟩
        · simp at hfalse
      · have := ih h1 c
        rw [hr] at this
        exact this hr2
    | panic =>
      dsimp at hc
      subst ht1
      rcases List.mem_cons.mp hc with rfl | hfalse
      · exact ⟨cid, rfl⟩
      · simp at hfalse

theorem getContainerInfo_trace_shape (h : Host) (service network : String) :
    ∀ c ∈ (getContainerInfo h service network).2.1, isScanCmd network c = true := by
  intro c hc
  unfold getContainerInfo at hc
  rcases hp : dockerPs h network with ⟨h1, t1, r1⟩
  have ht1 : t1 = [Cmd.ps network] := by
    have := dockerPs_trace h network
    rw [hp] at this
    exact this
  rw [hp] at hc
  cases r1 with
  | ok ids =>
    unfold Step.seq at hc
    dsimp at hc
    rcases hr : inspectLoop service network h1 ids with ⟨h2, t2, r2⟩
    rw [hr] at hc
    dsimp at hc
    subst ht1
    rcases List.mem_append.mp hc with hl | hr2
    · rcases List.mem_cons.mp hl with rfl | hfalse
      · simp [isScanCmd]
      · simp at hfalse
    · have := inspectLoop_trace_shape service network ids h1 c
      rw [hr] at this
      rcases this hr2 with ⟨cid, rfl⟩
      simp [isScanCmd]
  | err e =>
    unfold Step.seq at hc
    dsimp at hc
    subst ht1
    rcases List.mem_cons.mp hc with rfl | hfalse
    · simp [isScanCmd]
    · simp at hfalse
  | panic =>
    unfold Step.seq at hc
    dsimp at hc
    subst ht1
    rcases List.mem_cons.mp hc with rfl | hfalse
    · simp [isScanCmd]
    · simp at hfalse

theorem getContainerID_trace_shape (h : Host) (service network : String) :
    ∀ c ∈ (getContainerID h service network).2.1, isScanCmd network c = true := by
  intro c hc
  unfold getContainerID at hc
  rcases hgi : getContainerInfo h service network with ⟨h1, t1, r1⟩
  have hshape := getContainerInfo_trace_shape h service network
  rw [hgi] at hshape
  rw [hgi] at hc
  cases r1 with
  | ok info =>
    unfold Step.seq at hc
    dsimp at hc
    rw [List.append_nil] at hc
    exact hshape c hc
  | err e =>
    unfold Step.seq at hc
    dsimp at hc
    exact hshape c hc
  | panic =>
    unfold Step.seq at hc
    dsimp at hc
    exact hshape c hc

theorem Step.seq_ok_proj {α β : Type} {s : Step α} {f : Host → α → Step β} {b : β}
    (hok : (Step.seq s f).2.2 = Res.ok b) :
    ∃ a, s.2.2 = Res.ok a ∧ (Step.seq s f).2.1 = s.2.1 ++ (f s.1 a).2.1 ∧
      (Step.seq s f).1 = (f s.1 a).1 ∧ (f s.1 a).2.2 = Res.ok b := by
  rcases hU : Step.seq s f with ⟨h', t, r⟩
  rw [hU] at hok
  dsimp at hok
  subst hok
  obtain ⟨a, h1, h2, h3, h4⟩ := Step.seq_ok hU
  exact ⟨a, h1, h2, h3.symm, h4⟩

theorem switchTraffic_ok_shape (h : Host) (service network : String) {oldId : String}
    (hok : (switchTraffic h service network).2.2 = Res.ok oldId) :
    ∃ scanT, (∀ c ∈ scanT, isScanCmd network c = true) ∧
      (switchTraffic h service network).2.1 = scanT ++
        [Cmd.netDisconnect network (service ++ newContainerSuffix),
         Cmd.netConnect service network (service ++ newContainerSuffix),
         Cmd.sleep 1000000000,
         Cmd.netDisconnect network oldId] := by
  unfold switchTraffic at hok ⊢
  obtain ⟨old1, hG, hT1, _, hR1⟩ := Step.seq_ok_proj hok
  try dsimp at hT1 hR1
  obtain ⟨u1, _, hT2, _, hR2⟩ := Step.seq_ok_proj hR1
  try dsimp at hT2 hR2
  obtain ⟨u2, _, hT3, _, hR3⟩ := Step.seq_ok_proj hR2
  try dsimp at hT3 hR3
  obtain ⟨u3, _, hT4, _, hR4⟩ := Step.seq_ok_proj hR3
  try dsimp at hT4 hR4
  obtain ⟨u4, _, hT5, _, hR5⟩ := Step.seq_ok_proj hR4
  try dsimp at hT5 hR5
  have holdId : old1 = oldId := by
    injection hR5
  subst holdId
  refine ⟨(getContainerID h service network).2.1, ?_, ?_⟩
  · exact getContainerID_trace_shape h service network
  · rw [hT1, hT2, hT3, hT4, hT5]
    rw [dockerNetDisconnect_trace, dockerNetConnect_trace, dockerNetDisconnect_trace]
    simp [sleepEv, newContainerSuffix]

theorem cleanup_ok_shape (h : Host) (oldContID service : String)
    (hok : (cleanup h oldContID service).2.2 = Res.ok ()) :
    (cleanup h oldContID service).2.1 =
      [Cmd.stop oldContID, Cmd.rm oldContID,
       Cmd.rename (service ++ newContainerSuffix) service] := by
  unfold cleanup at hok ⊢
  obtain ⟨u1, _, hT1, _, hR1⟩ := Step.seq_ok_proj hok
  try dsimp at hT1 hR1
  obtain ⟨u2, _, hT2, _, hR2⟩ := Step.seq_ok_proj hR1
  try dsimp at hT2 hR2
  rw [hT1, hT2]
  rw [dockerStop_trace, dockerRm_trace, dockerRename_trace]
  rfl

theorem updateAfterStart_ok_shape (h2 : Host) (svc : Service) (network : String)
    (hok : (updateAfterStart h2 svc network).2.2 = Res.ok ()) :
    ∃ (healthT scanT : List Cmd) (oldContID : String),
      (updateAfterStart h2 svc network).2.1 =
        healthT ++ scanT ++
        [Cmd.netDisconnect network (svc.name ++ newContainerSuffix),
         Cmd.netConnect svc.name network (svc.name ++ newContainerSuffix),
         Cmd.sleep 1000000000,
         Cmd.netDisconnect network oldContID,
         Cmd.stop oldContID,
         Cmd.rm oldContID,
         Cmd.rename (svc.name ++ newContainerSuffix) svc.name] ∧
      (∀ c ∈ healthT, isHealthCmd (svc.name ++ newContainerSuffix) c = true) ∧
      (∀ c ∈ scanT, isScanCmd network c = true) := by
  unfold updateAfterStart at hok ⊢
  rcases hPH : performHealthChecks h2 (svc.name ++ newContainerSuffix) svc.healthCheck
    with ⟨h3, t3, r3⟩
  have ht3shape := performHealthChecks_trace_shape h2 (svc.name ++ newContainerSuffix)
    svc.healthCheck
  rw [hPH] at ht3shape hok
  cases r3 with
  | ok u =>
    dsimp at hok ⊢
    rcases hSC : Step.seq (switchTraffic h3 svc.name network)
        (fun h4 oldContID => cleanup h4 oldContID svc.name) with ⟨h5, t5, r5⟩
    rw [hSC] at hok
    dsimp at hok ⊢
    subst hok
    obtain ⟨oldContID, hSW, hT5, _, hCL⟩ := Step.seq_ok hSC
    obtain ⟨scanT, hscan, hswt⟩ := switchTraffic_ok_shape h3 svc.name network hSW
    have hclt := cleanup_ok_shape _ oldContID svc.name hCL
    refine ⟨t3, scanT, oldContID, ?_, ht3shape, hscan⟩
    rw [hT5, hswt, hclt]
    simp
  | err e =>
    dsimp at hok
    rcases hRF : dockerRmForce h3 (svc.name ++ newContainerSuffix) with ⟨h4, t4, r4⟩
    rw [hRF] at hok
    cases r4 with
    | ok u => dsimp at hok; cases hok
    | err e2 => dsimp at hok; cases hok
    | panic => dsimp at hok; cases hok
  | panic =>
    dsimp at hok
    cases hok

/-- C1: during a successful update of service S on network N, after the
shadow passed its health wait the engine issues, in this strict order,
exactly: disconnect the shadow from N; reconnect it to N with alias S;
sleep one second; disconnect the old container; stop it; remove it; rename
the shadow to S.  Before the swap the only commands are the image pull and
digest query, the shadow run, the health polls with their sleeps, and the
alias scan that locates the old container; sequencing in the model issues a
step only after the previous one returned success. -/
theorem C1_update_swap_sequence (h : Host) (svc : Service) (network : String)
    (hok : (UpdateService h svc network).2.2 = Res.ok ()) :
    ∃ (healthT scanT : List Cmd) (oldContID : String),
      (UpdateService h svc network).2.1 =
        [Cmd.pull svc.image, Cmd.images svc.image,
         Cmd.run svc network newContainerSuffix (ServiceHash svc)] ++
        healthT ++ scanT ++
        [Cmd.netDisconnect network (svc.name ++ newContainerSuffix),
         Cmd.netConnect svc.name network (svc.name ++ newContainerSuffix),
         Cmd.sleep 1000000000,
         Cmd.netDisconnect network oldContID,
         Cmd.stop oldContID,
         Cmd.rm oldContID,
         Cmd.rename (svc.name ++ newContainerSuffix) svc.name] ∧
      (∀ c ∈ healthT, isHealthCmd (svc.name ++ newContainerSuffix) c = true) ∧
      (∀ c ∈ scanT, isScanCmd network c = true) := by
  unfold UpdateService at hok ⊢
  obtain ⟨o1, hPull, hT1, _, hR1⟩ := Step.seq_ok_proj hok
  try dsimp at hT1 hR1
  obtain ⟨u1, hRun, hT2, _, hR2⟩ := Step.seq_ok_proj hR1
  try dsimp at hT2 hR2
  obtain ⟨healthT, scanT, oldContID, hAT, hHshape, hSshape⟩ :=
    updateAfterStart_ok_shape _ svc network hR2
  refine ⟨healthT, scanT, oldContID, ?_, hHshape, hSshape⟩
  rw [hT1, hT2, hAT, pullImage_ok_trace h svc.image hPull, startContainer_trace]
  simp

/-! ## Deterministic specs under explicit host hypotheses -/

theorem failsOn_false_not_mem {h : Host} {c : Cmd} (hf : h.failsOn c = false) :
    c ∉ h.failures := by
  simpa [Host.failsOn] using hf

theorem pullImage_spec (h : Host) (img digest : String)
    (hfp : h.failsOn (Cmd.pull img) = false) (hfi : h.failsOn (Cmd.images img) = false)
    (hreg : alkup h.registry img = some digest) :
    pullImage h img =
      ({ h with images := alset h.images img digest },
       [Cmd.pull img, Cmd.images img], Res.ok digest) := by
  simp [pullImage, dockerPull, dockerImagesId, Step.seq, Host.failsOn, hreg,
    alkup_alset_self, failsOn_false_not_mem hfp, failsOn_false_not_mem hfi]

theorem startContainer_spec (h : Host) (svc : Service) (network suffix : String)
    (hfail : h.failsOn (Cmd.run svc network suffix (ServiceHash svc)) = false)
    (hname : nameTaken h (svc.name ++ suffix) = false)
    (hnet : h.networks.contains network = true)
    {digest : String} (himg : alkup h.images svc.image = some digest) :
    startContainer h svc network suffix =
      ({ h with containers := h.containers ++
          [{ id := "cid-" ++ (svc.name ++ suffix), name := svc.name ++ suffix, image := digest,
             labels := [("aerie.config-hash", ServiceHash svc)],
             nets := [(network, [svc.name ++ suffix])], running := true }] },
       [Cmd.run svc network suffix (ServiceHash svc)], Res.ok ()) := by
  simp [startContainer, dockerRun, hfail, hname, hnet, himg]
  simpa using hnet

theorem dockerRmForce_found (h : Host) (ref : String) (hfail : h.failures = [])
    {k : Container} (hfound : findContainer h ref = some k) :
    dockerRmForce h ref =
      ({ h with containers := h.containers.filter (fun k' => !(k'.id == ref || k'.name == ref)) },
       [Cmd.rmForce ref], Res.ok ()) := by
  simp [dockerRmForce, Host.failsOn, hfail, hfound]

theorem dockerInspectHealth_fields (h : Host) (container : String) :
    (dockerInspectHealth h container).1.containers = h.containers ∧
    (dockerInspectHealth h container).1.networks = h.networks ∧
    (dockerInspectHealth h container).1.volumes = h.volumes ∧
    (dockerInspectHealth h container).1.images = h.images ∧
    (dockerInspectHealth h container).1.registry = h.registry ∧
    (dockerInspectHealth h container).1.healthAt = h.healthAt ∧
    (dockerInspectHealth h container).1.failures = h.failures := by
  unfold dockerInspectHealth
  dsimp only []
  repeat' split
  all_goals simp

theorem dockerInspectHealth_result (h : Host) (container : String)
    (hfail : h.failures = []) :
    (dockerInspectHealth h container).2.2 = Res.ok (h.healthAt container h.clock) ∨
    ∃ e, (dockerInspectHealth h container).2.2 = Res.err e := by
  unfold dockerInspectHealth
  dsimp only []
  rw [show h.failsOn (Cmd.inspectHealth container) = false by simp [Host.failsOn, hfail]]
  try simp only [Bool.false_eq_true, if_false]
  rcases findContainer h container with _ | k
  · exact Or.inr ⟨"no such container", rfl⟩
  · exact Or.inl rfl

theorem healthLoop_unhealthy (container : String) (chk : HealthCheck) :
    ∀ (fuel : Nat) (h : Host),
      (∀ t, (h.healthAt container t).trimmed ≠ "healthy") →
      h.failures = [] →
      (∃ e, (healthLoop container chk h fuel).2.2 = Res.err e) ∧
      (healthLoop container chk h fuel).1.containers = h.containers ∧
      (healthLoop container chk h fuel).1.networks = h.networks ∧
      (healthLoop container chk h fuel).1.volumes = h.volumes ∧
      (healthLoop container chk h fuel).1.images = h.images ∧
      (healthLoop container chk h fuel).1.registry = h.registry ∧
      (healthLoop container chk h fuel).1.healthAt = h.healthAt ∧
      (healthLoop container chk h fuel).1.failures = h.failures := by
  intro fuel
  induction fuel with
  | zero =>
    intro h hun hfail
    exact ⟨⟨"container failed to become healthy", rfl⟩, rfl, rfl, rfl, rfl, rfl, rfl, rfl⟩
  | succ n ih =>
    intro h hun hfail
    have hfields := dockerInspectHealth_fields h container
    have hres := dockerInspectHealth_result h container hfail
    unfold healthLoop
    rcases hq : dockerInspectHealth h container with ⟨h1, t1, r1⟩
    rw [hq] at hfields hres
    dsimp at hfields hres
    obtain ⟨hc1, hn1, hv1, hi1, hr1, hh1, hf1⟩ := hfields
    have hun1 : ∀ t, (h1.healthAt container t).trimmed ≠ "healthy" := by
      rw [hh1]
      exact hun
    have hfail1 : h1.failures = [] := by rw [hf1, hfail]
    have ihh := ih h1 hun1 hfail1
    cases r1 with
    | ok out =>
      have hout : out = h.healthAt container h.clock := by
        rcases hres with hres | ⟨e, hres⟩
        · exact Res.ok.inj hres
        · exact absurd hres (by simp)
      have htrim : (out.trimmed == "healthy") = false := by
        rw [hout]
        exact beq_eq_false_iff_ne.mpr (hun h.clock)
      dsimp
      rw [htrim]
      try simp only [Bool.false_eq_true, if_false]
      rcases hr : healthLoop container chk h1 n with ⟨h2, t2, r2⟩
      rw [hr] at ihh
      dsimp at ihh
      obtain ⟨⟨e, he⟩, ihc, ihn, ihv, ihi, ihr, ihh2, ihf⟩ := ihh
      subst he
      refine ⟨⟨e, rfl⟩, ?_, ?_, ?_, ?_, ?_, ?_, ?_⟩
      · rw [ihc, hc1]
      · rw [ihn, hn1]
      · rw [ihv, hv1]
      · rw [ihi, hi1]
      · rw [ihr, hr1]
      · rw [ihh2, hh1]
      · rw [ihf, hf1]
    | err e =>
      dsimp
      rcases hr : healthLoop container chk h1 n with ⟨h2, t2, r2⟩
      rw [hr] at ihh
      dsimp at ihh
      obtain ⟨⟨e2, he⟩, ihc, ihn, ihv, ihi, ihr, ihh2, ihf⟩ := ihh
      subst he
      refine ⟨⟨e2, rfl⟩, ?_, ?_, ?_, ?_, ?_, ?_, ?_⟩
      · rw [ihc, hc1]
      · rw [ihn, hn1]
      · rw [ihv, hv1]
      · rw [ihi, hi1]
      · rw [ihr, hr1]
      · rw [ihh2, hh1]
      · rw [ihf, hf1]
    | panic =>
      rcases hres with hres | ⟨e, hres⟩
      · cases hres
      · cases hres

theorem find?_append_singleton_of_none {α : Type} (p : α → Bool) (l : List α) (x : α)
    (hl : ∀ a ∈ l, p a = false) (hx : p x = true) :
    (l ++ [x]).find? p = some x := by
  induction l with
  | nil => simp [List.find?, hx]
  | cons a as ih =>
    have ha := hl a (by simp)
    simp only [List.cons_append, List.find?, ha]
    exact ih (fun b hb => hl b (by simp [hb]))

theorem filter_append_singleton_self {α : Type} (p : α → Bool) (l : List α) (x : α)
    (hl : ∀ a ∈ l, p a = true) (hx : p x = false) :
    (l ++ [x]).filter p = l := by
  induction l with
  | nil => simp [List.filter, hx]
  | cons a as ih =>
    have ha := hl a (by simp)
    simp only [List.cons_append, List.filter, ha, List.append_eq]
    rw [ih (fun b hb => hl b (by simp [hb]))]

theorem isHealthCmd_not_swap (container : String) (c : Cmd)
    (hh : isHealthCmd container c = true) :
    isSwapCmd c = false ∧ ∀ x, c ≠ Cmd.rmForce x := by
  cases c <;> simp_all [isHealthCmd, isSwapCmd]

theorem updateAfterStart_unhealthy (h2 : Host) (svc : Service) (network : String)
    (chk : HealthCheck)
    (hhc : svc.healthCheck = some chk)
    (hfail2 : h2.failures = [])
    (hun2 : ∀ t, (h2.healthAt (svc.name ++ newContainerSuffix) t).trimmed ≠ "healthy")
    {k0 : Container}
    (hfind : findContainer h2 (svc.name ++ newContainerSuffix) = some k0) :
    (∃ e, (updateAfterStart h2 svc network).2.2 = Res.err e) ∧
    (updateAfterStart h2 svc network).1.containers =
      h2.containers.filter
        (fun k' => !(k'.id == svc.name ++ newContainerSuffix ||
                     k'.name == svc.name ++ newContainerSuffix)) ∧
    ∃ healthT, (∀ c ∈ healthT, isHealthCmd (svc.name ++ newContainerSuffix) c = true) ∧
      (updateAfterStart h2 svc network).2.1 = healthT ++
        [Cmd.rmForce (svc.name ++ newContainerSuffix)] := by
  have hHLspec := healthLoop_unhealthy (svc.name ++ newContainerSuffix) chk
    ((HealthCheck.retries chk).toNat) h2 hun2 hfail2
  have hHLshape := healthLoop_trace_shape (svc.name ++ newContainerSuffix) chk
    ((HealthCheck.retries chk).toNat) h2
  unfold updateAfterStart
  simp only [performHealthChecks, hhc]
  rcases hHL : healthLoop (svc.name ++ newContainerSuffix) chk h2
      ((HealthCheck.retries chk).toNat) with ⟨h3, t3, r3⟩
  rw [hHL] at hHLspec hHLshape
  dsimp at hHLspec hHLshape
  obtain ⟨⟨e, he⟩, hc3, _, _, _, _, _, hf3⟩ := hHLspec
  subst he
  have hfind3 : findContainer h3 (svc.name ++ newContainerSuffix) = some k0 := by
    unfold findContainer at hfind ⊢
    rw [hc3]
    exact hfind
  have hRF := dockerRmForce_found h3 (svc.name ++ newContainerSuffix)
    (by rw [hf3, hfail2]) hfind3
  dsimp
  rw [hRF]
  dsimp
  refine ⟨⟨_, rfl⟩, ?_, t3, hHLshape, rfl⟩
  rw [hc3]

/-- C2: if the shadow container started by update(S, N) never reports
healthy, update returns a failure, the shadow S_new is force-removed (no
container by that name remains), the host's containers end as they began,
and no stop, remove, rename, or network command is ever issued; the only
force-remove in the trace targets the shadow, so the old live container is
untouched and keeps its alias. -/
theorem C2_update_unhealthy_rollback
    (h : Host) (svc : Service) (network : String) (chk : HealthCheck)
    (hhc : svc.healthCheck = some chk)
    (hfail : h.failures = [])
    (hreg : ∃ digest, alkup h.registry svc.image = some digest)
    (hfree : ∀ c ∈ h.containers,
      c.name ≠ svc.name ++ newContainerSuffix ∧ c.id ≠ svc.name ++ newContainerSuffix)
    (hnet : h.networks.contains network = true)
    (hun : ∀ t, (h.healthAt (svc.name ++ newContainerSuffix) t).trimmed ≠ "healthy") :
    (∃ e, (UpdateService h svc network).2.2 = Res.err e) ∧
    (UpdateService h svc network).1.containers = h.containers ∧
    (∀ c ∈ (UpdateService h svc network).1.containers,
      c.name ≠ svc.name ++ newContainerSuffix) ∧
    Cmd.rmForce (svc.name ++ newContainerSuffix) ∈ (UpdateService h svc network).2.1 ∧
    (∀ c ∈ (UpdateService h svc network).2.1, isSwapCmd c = false) ∧
    (∀ x, Cmd.rmForce x ∈ (UpdateService h svc network).2.1 →
      x = svc.name ++ newContainerSuffix) := by
  obtain ⟨digest, hd⟩ := hreg
  have hPull := pullImage_spec h svc.image digest (by simp [Host.failsOn, hfail])
    (by simp [Host.failsOn, hfail]) hd
  have hname1 : nameTaken { h with images := alset h.images svc.image digest }
      (svc.name ++ newContainerSuffix) = false := by
    simp only [nameTaken]
    try dsimp
    rw [List.any_eq_false]
    intro c hc
    simp [(hfree c hc).1]
  have hRun := startContainer_spec { h with images := alset h.images svc.image digest }
    svc network newContainerSuffix (by simp [Host.failsOn, hfail]) hname1
    (by dsimp; exact hnet)
    (by dsimp; exact alkup_alset_self h.images svc.image digest)
  try dsimp at hRun
  have hfind2 : findContainer
      { h with images := alset h.images svc.image digest,
               containers := h.containers ++
                 [{ id := "cid-" ++ (svc.name ++ newContainerSuffix),
                    name := svc.name ++ newContainerSuffix, image := digest,
                    labels := [("aerie.config-hash", ServiceHash svc)],
                    nets := [(network, [svc.name ++ newContainerSuffix])], running := true }] }
      (svc.name ++ newContainerSuffix) =
      some { id := "cid-" ++ (svc.name ++ newContainerSuffix),
             name := svc.name ++ newContainerSuffix, image := digest,
             labels := [("aerie.config-hash", ServiceHash svc)],
             nets := [(network, [svc.name ++ newContainerSuffix])], running := true } := by
    unfold findContainer
    dsimp
    apply find?_append_singleton_of_none
    · intro a ha
      simp [(hfree a ha).1, (hfree a ha).2]
    · simp
  have hAS := updateAfterStart_unhealthy
    { h with images := alset h.images svc.image digest,
             containers := h.containers ++
               [{ id := "cid-" ++ (svc.name ++ newContainerSuffix),
                  name := svc.name ++ newContainerSuffix, image := digest,
                  labels := [("aerie.config-hash", ServiceHash svc)],
                  nets := [(network, [svc.name ++ newContainerSuffix])], running := true }] }
    svc network chk hhc (by dsimp; exact hfail) (by dsimp; exact hun) hfind2
  rcases hAS0 : updateAfterStart
      { h with images := alset h.images svc.image digest,
               containers := h.containers ++
                 [{ id := "cid-" ++ (svc.name ++ newContainerSuffix),
                    name := svc.name ++ newContainerSuffix, image := digest,
                    labels := [("aerie.config-hash", ServiceHash svc)],
                    nets := [(network, [svc.name ++ newContainerSuffix])], running := true }] }
      svc network with ⟨hF, tF, rF⟩
  rw [hAS0] at hAS
  try dsimp at hAS
  obtain ⟨⟨e, he⟩, hcF, healthT, hhT, htF⟩ := hAS
  subst he
  subst htF
  have hcontF : hF.containers = h.containers := by
    rw [hcF]
    try dsimp
    apply filter_append_singleton_self
    · intro a ha
      simp [(hfree a ha).1, (hfree a ha).2]
    · simp
  have hU : UpdateService h svc network =
      (hF, [Cmd.pull svc.image, Cmd.images svc.image] ++
        ([Cmd.run svc network newContainerSuffix (ServiceHash svc)] ++
          (healthT ++ [Cmd.rmForce (svc.name ++ newContainerSuffix)])),
        Res.err e) := by
    unfold UpdateService
    rw [hPull]
    simp only [Step.seq]
    rw [hRun]
    dsimp
    rw [hAS0]
  rw [hU]
  dsimp
  refine ⟨⟨e, rfl⟩, hcontF, ?_, ?_, ?_, ?_⟩
  · rw [hcontF]
    intro c hc
    exact (hfree c hc).1
  · simp
  · intro c hc
    rcases List.mem_cons.mp hc with rfl | hc1
    · rfl
    · rcases List.mem_cons.mp hc1 with rfl | hc2
      · rfl
      · rcases List.mem_cons.mp hc2 with rfl | hc3
        · rfl
        · rcases List.mem_append.mp hc3 with h2c | h2d
          · exact (isHealthCmd_not_swap _ c (hhT c h2c)).1
          · rcases List.mem_cons.mp h2d with rfl | h2e
            · rfl
            · simp at h2e
  · intro x hx
    rcases List.mem_cons.mp hx with heq | hx1
    · cases heq
    · rcases List.mem_cons.mp hx1 with heq | hx2
      · cases heq
      · rcases List.mem_cons.mp hx2 with heq | hx3
        · cases heq
        · rcases List.mem_append.mp hx3 with h2c | h2d
          · exact absurd rfl ((isHealthCmd_not_swap _ _ (hhT _ h2c)).2 x)
          · rcases List.mem_cons.mp h2d with heq | h2e
            · exact Cmd.rmForce.inj heq
            · simp at h2e

/-- C5: claimed — with no declared health check, install and update skip
the health wait and proceed. In the code performHealthChecks dereferences
the nil healthCheck pointer in its loop condition, so both InstallService
and UpdateService panic right after the container run: no health poll is
issued, and neither operation proceeds or succeeds. -/
theorem C5_nil_healthcheck_panics (h : Host) (svc : Service) (network : String)
    (hhc : svc.healthCheck = none)
    (hfail : h.failures = [])
    (hreg : ∃ digest, alkup h.registry svc.image = some digest)
    (hname : nameTaken h svc.name = false)
    (hnameNew : nameTaken h (svc.name ++ newContainerSuffix) = false)
    (hnet : h.networks.contains network = true) :
    (InstallService h svc network).2.2 = Res.panic ∧
    (InstallService h svc network).2.1 =
      [Cmd.pull svc.image, Cmd.images svc.image,
       Cmd.run svc network "" (ServiceHash svc)] ∧
    (UpdateService h svc network).2.2 = Res.panic ∧
    (UpdateService h svc network).2.1 =
      [Cmd.pull svc.image, Cmd.images svc.image,
       Cmd.run svc network newContainerSuffix (ServiceHash svc)] := by
  obtain ⟨digest, hd⟩ := hreg
  have hPull := pullImage_spec h svc.image digest (by simp [Host.failsOn, hfail])
    (by simp [Host.failsOn, hfail]) hd
  have hname1 : nameTaken { h with images := alset h.images svc.image digest }
      (svc.name ++ "") = false := by
    rw [String.append_empty]
    simpa [nameTaken] using hname
  have hname2 : nameTaken { h with images := alset h.images svc.image digest }
      (svc.name ++ newContainerSuffix) = false := by
    simpa [nameTaken] using hnameNew
  have hRunI := startContainer_spec { h with images := alset h.images svc.image digest }
    svc network "" (by simp [Host.failsOn, hfail]) hname1 (by dsimp; exact hnet)
    (by dsimp; exact alkup_alset_self h.images svc.image digest)
  have hRunU := startContainer_spec { h with images := alset h.images svc.image digest }
    svc network newContainerSuffix (by simp [Host.failsOn, hfail]) hname2
    (by dsimp; exact hnet)
    (by dsimp; exact alkup_alset_self h.images svc.image digest)
  refine ⟨?_, ?_, ?_, ?_⟩
  · unfold InstallService
    rw [hPull]
    simp only [Step.seq]
    rw [hRunI]
    dsimp
    simp [performHealthChecks, hhc]
  · unfold InstallService
    rw [hPull]
    simp only [Step.seq]
    rw [hRunI]
    dsimp
    simp [performHealthChecks, hhc]
  · unfold UpdateService
    rw [hPull]
    simp only [Step.seq]
    rw [hRunU]
    dsimp
    simp [updateAfterStart, performHealthChecks, hhc]
  · unfold UpdateService
    rw [hPull]
    simp only [Step.seq]
    rw [hRunU]
    dsimp
    simp [updateAfterStart, performHealthChecks, hhc]

/-! ## The alias scan: correspondence with its pure mirror -/

theorem dockerInspect_found (h : Host) (cid : String) {k : Container}
    (hfail : h.failsOn (Cmd.inspect cid) = false) (hf : findContainer h cid = some k) :
    dockerInspect h cid = (h, [Cmd.inspect cid], Res.ok k) := by
  simp [dockerInspect, hfail, hf]

theorem dockerInspect_missing (h : Host) (cid : String)
    (hfail : h.failsOn (Cmd.inspect cid) = false) (hf : findContainer h cid = none) :
    dockerInspect h cid = (h, [Cmd.inspect cid], Res.err "no such container") := by
  simp [dockerInspect, hfail, hf]

theorem inspectLoop_spec (service network : String) :
    ∀ (ids : List String) (h : Host), (∀ cid, h.failsOn (Cmd.inspect cid) = false) →
      inspectLoop service network h ids =
        (h, scanCmds h.containers service network ids,
         match scanFind h.containers service network ids with
         | some c => Res.ok c
         | none => Res.err ("no container found with alias " ++ service ++
             " in network " ++ network)) := by
  intro ids
  induction ids with
  | nil =>
    intro h hfail
    simp [inspectLoop, scanCmds, scanFind]
  | cons cid rest ih =>
    intro h hfail
    unfold inspectLoop scanCmds scanFind
    rcases hf : List.find? (fun c => c.id == cid || c.name == cid) h.containers with _ | k
    · have hmiss := dockerInspect_missing h cid (hfail cid) (by unfold findContainer; exact hf)
      rw [hmiss]
      dsimp
      rw [ih h hfail, hf]
    · have hfound := dockerInspect_found h cid (hfail cid) (by unfold findContainer; exact hf)
      rw [hfound]
      dsimp
      rw [hf]
      by_cases halias : hasAlias k network service = true
      · simp [halias]
      · rw [ih h hfail]
        simp [halias]

theorem getContainerInfo_spec (h : Host) (service network : String)
    (hfailps : h.failsOn (Cmd.ps network) = false)
    (hfail : ∀ cid, h.failsOn (Cmd.inspect cid) = false) :
    getContainerInfo h service network =
      (h, Cmd.ps network ::
        scanCmds h.containers service network (idsOnNetwork h.containers network),
       match scanFind h.containers service network (idsOnNetwork h.containers network) with
       | some c => Res.ok c
       | none => Res.err ("no container found with alias " ++ service ++
           " in network " ++ network)) := by
  unfold getContainerInfo
  have hps : dockerPs h network = (h, [Cmd.ps network], Res.ok (idsOnNetwork h.containers network)) := by
    simp [dockerPs, hfailps]
  rw [hps]
  unfold Step.seq
  dsimp
  rw [inspectLoop_spec service network (idsOnNetwork h.containers network) h hfail]

theorem find?_mem_unique {α : Type} (p : α → Bool) (l : List α) (x : α)
    (hx : x ∈ l) (hpx : p x = true)
    (huniq : ∀ y ∈ l, p y = true → y = x) : l.find? p = some x := by
  induction l with
  | nil => simp at hx
  | cons a as ih =>
    rcases List.mem_cons.mp hx with rfl | hx'
    · simp [List.find?, hpx]
    · by_cases hpa : p a = true
      · have : a = x := huniq a (by simp) hpa
        subst this
        simp [List.find?, hpa]
      · have hpa' : p a = false := by
          cases hq : p a
          · rfl
          · exact absurd hq hpa
        simp only [List.find?, hpa']
        exact ih hx' (fun y hy hpy => huniq y (by simp [hy]) hpy)

theorem scanFind_mem (conts : List Container) (service network : String) :
    ∀ (ids : List String) (k : Container),
      scanFind conts service network ids = some k →
      k ∈ conts ∧ hasAlias k network service = true := by
  intro ids
  induction ids with
  | nil =>
    intro k hk
    simp [scanFind] at hk
  | cons cid rest ih =>
    intro k hk
    unfold scanFind at hk
    rcases hf : List.find? (fun c => c.id == cid || c.name == cid) conts with _ | c
    · rw [hf] at hk
      exact ih k hk
    · rw [hf] at hk
      dsimp at hk
      by_cases halias : hasAlias c network service = true
      · rw [if_pos halias] at hk
        injection hk with hk'
        subst hk'
        exact ⟨List.mem_of_find?_eq_some hf, halias⟩
      · rw [if_neg halias] at hk
        exact ih k hk

theorem hasAlias_isSome (c : Container) (network service : String)
    (h : hasAlias c network service = true) : (alkup c.nets network).isSome = true := by
  unfold hasAlias at h
  rcases hq : alkup c.nets network with _ | aliases
  · rw [hq] at h
    cases h
  · rfl

theorem scanFind_some_of_alias (conts : List Container) (service network : String)
    (hwf : (conts.map Container.id ++ conts.map Container.name).Nodup)
    (c0 : Container) (hmem : c0 ∈ conts) (halias : hasAlias c0 network service = true) :
    ∃ k, scanFind conts service network (idsOnNetwork conts network) = some k := by
  have hids : (conts.map Container.id).Nodup := (List.nodup_append.mp hwf).1
  have hdisj : (conts.map Container.id).Disjoint (conts.map Container.name) :=
    (List.nodup_append.mp hwf).2.2
  have hfind : List.find? (fun c => c.id == c0.id || c.name == c0.id) conts = some c0 := by
    apply find?_mem_unique _ _ c0 hmem (by simp)
    intro y hy hpy
    rcases Bool.or_eq_true_iff.mp hpy with hid | hname
    · have hid' : y.id = c0.id := by simpa using hid
      exact List.inj_on_of_nodup_map hids hy hmem hid'
    · have hname' : y.name = c0.id := by simpa using hname
      exfalso
      have hmem1 : c0.id ∈ conts.map Container.id :=
        List.mem_map_of_mem Container.id hmem
      have hmem2 : c0.id ∈ conts.map Container.name := by
        rw [← hname']
        exact List.mem_map_of_mem Container.name hy
      exact hdisj hmem1 hmem2
  have hscan : ∀ ids : List String, c0.id ∈ ids →
      ∃ k, scanFind conts service network ids = some k := by
    intro ids
    induction ids with
    | nil =>
      intro hmm
      simp at hmm
    | cons cid rest ih =>
      intro hcid
      unfold scanFind
      rcases hf : List.find? (fun c => c.id == cid || c.name == cid) conts with _ | c
      · rcases List.mem_cons.mp hcid with rfl | hrest
        · cases hfind.symm.trans hf
        · obtain ⟨k, hk⟩ := ih hrest
          exact ⟨k, by rw [hf]; exact hk⟩
      · by_cases halias2 : hasAlias c network service = true
        · exact ⟨c, by rw [hf]; simp [halias2]⟩
        · rcases List.mem_cons.mp hcid with rfl | hrest
          · have hc0 : c = c0 := by
              have := hfind.symm.trans hf
              injection this with this'
              exact this'.symm
            subst hc0
            exact absurd halias halias2
          · obtain ⟨k, hk⟩ := ih hrest
            refine ⟨k, ?_⟩
            rw [hf]
            simp [halias2, hk]
  apply hscan
  unfold idsOnNetwork
  apply List.mem_map_of_mem Container.id
  rw [List.mem_filter]
  exact ⟨hmem, hasAlias_isSome c0 network service halias⟩

theorem scanCmds_shape (conts : List Container) (service network : String) :
    ∀ (ids : List String), ∀ c ∈ scanCmds conts service network ids,
      ∃ cid, c = Cmd.inspect cid := by
  intro ids
  induction ids with
  | nil =>
    intro c hc
    simp [scanCmds] at hc
  | cons cid rest ih =>
    intro c hc
    unfold scanCmds at hc
    rcases List.mem_cons.mp hc with rfl | hc'
    · exact ⟨cid, rfl⟩
    · rcases hf : List.find? (fun k => k.id == cid || k.name == cid) conts with _ | k
      · rw [hf] at hc'
        exact ih c hc'
      · rw [hf] at hc'
        dsimp at hc'
        by_cases halias : hasAlias k network service = true
        · rw [if_pos halias] at hc'
          simp at hc'
        · rw [if_neg halias] at hc'
          exact ih c hc'

theorem deployService_noop (h : Host) (svc : Service) (network : String) (digest : String)
    (hfail : h.failures = [])
    (hreg : alkup h.registry svc.image = some digest)
    (hfound : ∃ c0, scanFind h.containers svc.name network
      (idsOnNetwork h.containers network) = some c0)
    (hgood : ∀ c ∈ h.containers, hasAlias c network svc.name = true →
      c.image = digest ∧ alkup c.labels "aerie.config-hash" = some (ServiceHash svc)) :
    deployService h svc network =
      ({ h with images := alset h.images svc.image digest },
       [Cmd.pull svc.image, Cmd.images svc.image] ++
         (Cmd.ps network :: scanCmds h.containers svc.name network
           (idsOnNetwork h.containers network)) ++
         (Cmd.ps network :: scanCmds h.containers svc.name network
           (idsOnNetwork h.containers network)),
       Res.ok ()) := by
  obtain ⟨c0, hscan⟩ := hfound
  have hc0 := scanFind_mem h.containers svc.name network _ c0 hscan
  have hc0good := hgood c0 hc0.1 hc0.2
  have hPull := pullImage_spec h svc.image digest (by simp [Host.failsOn, hfail])
    (by simp [Host.failsOn, hfail]) hreg
  have hGCI := getContainerInfo_spec { h with images := alset h.images svc.image digest }
    svc.name network (by simp [Host.failsOn, hfail]) (fun cid => by simp [Host.failsOn, hfail])
  try dsimp at hGCI
  rw [hscan] at hGCI
  unfold deployService
  rw [hPull]
  simp only [Step.seq]
  dsimp
  rw [hGCI]
  dsimp
  simp only [hc0good.1, not_true, if_false]
  unfold serviceChanged
  rw [hGCI]
  simp only [Step.seq]
  dsimp
  rw [hc0good.2]
  simp

/-- C3: when the live container for S on N carries both the freshly pulled
image identity and a config-hash label equal to ServiceHash S, reconcile
(deployService) succeeds with an image pull and inspect-only observation
commands — no container run, no network or volume mutation, no stop,
remove, or rename — leaves the host's containers, networks, and volumes
unchanged, and a second run on the resulting host issues exactly the same
commands with the same outcome. -/
theorem C3_reconcile_noop (h : Host) (svc : Service) (network : String) (digest : String)
    (hfail : h.failures = [])
    (hreg : alkup h.registry svc.image = some digest)
    (hfound : ∃ c0, scanFind h.containers svc.name network
      (idsOnNetwork h.containers network) = some c0)
    (hgood : ∀ c ∈ h.containers, hasAlias c network svc.name = true →
      c.image = digest ∧ alkup c.labels "aerie.config-hash" = some (ServiceHash svc)) :
    (deployService h svc network).2.2 = Res.ok () ∧
    (∀ c ∈ (deployService h svc network).2.1, isMutatingCmd c = false) ∧
    Cmd.pull svc.image ∈ (deployService h svc network).2.1 ∧
    (deployService h svc network).1.containers = h.containers ∧
    (deployService h svc network).1.networks = h.networks ∧
    (deployService h svc network).1.volumes = h.volumes ∧
    (deployService (deployService h svc network).1 svc network).2.1 =
      (deployService h svc network).2.1 ∧
    (deployService (deployService h svc network).1 svc network).2.2 = Res.ok () := by
  have hD1 := deployService_noop h svc network digest hfail hreg hfound hgood
  have hD2 := deployService_noop { h with images := alset h.images svc.image digest }
    svc network digest (by dsimp; exact hfail) (by dsimp; exact hreg)
    (by dsimp; exact hfound) (by dsimp; exact hgood)
  have hmemshape : ∀ c ∈ [Cmd.pull svc.image, Cmd.images svc.image] ++
      (Cmd.ps network :: scanCmds h.containers svc.name network
        (idsOnNetwork h.containers network)) ++
      (Cmd.ps network :: scanCmds h.containers svc.name network
        (idsOnNetwork h.containers network)), isMutatingCmd c = false := by
    intro c hc
    rcases List.mem_append.mp hc with h1 | h2
    · rcases List.mem_append.mp h1 with h1a | h1b
      · rcases List.mem_cons.mp h1a with rfl | h1a'
        · rfl
        · rcases List.mem_cons.mp h1a' with rfl | h1a''
          · rfl
          · simp at h1a''
      · rcases List.mem_cons.mp h1b with rfl | h1b'
        · rfl
        · rcases scanCmds_shape h.containers svc.name network _ c h1b' with ⟨cid, rfl⟩
          rfl
    · rcases List.mem_cons.mp h2 with rfl | h2'
      · rfl
      · rcases scanCmds_shape h.containers svc.name network _ c h2' with ⟨cid, rfl⟩
        rfl
  rw [hD1]
  refine ⟨rfl, ?_, ?_, rfl, rfl, rfl, ?_, ?_⟩
  · exact hmemshape
  · simp
  · rw [hD2]
  · rw [hD2]

theorem healthLoop_healthy_first (container : String) (chk : HealthCheck)
    (h : Host) (fuel : Nat)
    (hfail : h.failsOn (Cmd.inspectHealth container) = false)
    {k : Container} (hfound : findContainer h container = some k)
    (hh : ((h.healthAt container h.clock).trimmed == "healthy") = true) :
    healthLoop container chk h (fuel + 1) =
      ({ h with clock := h.clock + 1 }, [Cmd.inspectHealth container], Res.ok ()) := by
  have hIH : dockerInspectHealth h container =
      ({ h with clock := h.clock + 1 }, [Cmd.inspectHealth container],
       Res.ok (h.healthAt container h.clock)) := by
    simp [dockerInspectHealth, hfail, hfound]
  unfold healthLoop
  rw [hIH]
  dsimp
  rw [hh]
  simp

theorem dockerNetDisconnect_spec (h : Host) (network ref : String) {k : Container}
    (hfail : h.failsOn (Cmd.netDisconnect network ref) = false)
    (hf : findContainer h ref = some k)
    (hconn : (alkup k.nets network).isSome = true) :
    dockerNetDisconnect h network ref =
      ({ h with containers := List.map (fun k' => if k'.id == k.id then { k' with nets := k'.nets.filter (fun p => p.1 != network) } else k') h.containers },
       [Cmd.netDisconnect network ref], Res.ok ()) := by
  simp [dockerNetDisconnect, hfail, hf, hconn]

theorem dockerNetConnect_fails (h : Host) (al network ref : String)
    (hfail : h.failsOn (Cmd.netConnect al network ref) = true) :
    dockerNetConnect h al network ref =
      (h, [Cmd.netConnect al network ref], Res.err "network connect failed") := by
  simp [dockerNetConnect, hfail]

theorem nodup_extend_pair {A B : List String} (a b : String)
    (h : (A ++ B).Nodup) (haA : a ∉ A) (haB : a ∉ B) (hbA : b ∉ A) (hbB : b ∉ B)
    (hab : a ≠ b) : ((A ++ [a]) ++ (B ++ [b])).Nodup := by
  have hA := (List.nodup_append.mp h).1
  have hB := (List.nodup_append.mp h).2.1
  have hD := (List.nodup_append.mp h).2.2
  rw [List.nodup_append]
  refine ⟨?_, ?_, ?_⟩
  · rw [List.nodup_append]
    refine ⟨hA, List.nodup_singleton a, ?_⟩
    intro x hx hx'
    rcases List.mem_singleton.mp hx' with rfl
    exact haA hx
  · rw [List.nodup_append]
    refine ⟨hB, List.nodup_singleton b, ?_⟩
    intro x hx hx'
    rcases List.mem_singleton.mp hx' with rfl
    exact hbB hx
  · intro x hx hx'
    rcases List.mem_append.mp hx with hxA | hxa
    · rcases List.mem_append.mp hx' with hxB | hxb
      · exact hD hxA hxB
      · rcases List.mem_singleton.mp hxb with rfl
        exact hbA hxA
    · rcases List.mem_singleton.mp hxa with rfl
      rcases List.mem_append.mp hx' with hxB | hxb
      · exact haB hxB
      · rcases List.mem_singleton.mp hxb with rfl
        exact hab rfl


/-- Generic tail behaviour of updateAfterStart when the health wait passes on
the first poll but the network connect of step (b) is the (only) failing
command: the update errs, no force-remove is issued, the failed connect is
the last command, and a container named S_new is still on the host. -/
theorem updateAfterStart_connect_fail (h2 : Host) (svc : Service) (network : String)
    (chk : HealthCheck) (k : Container)
    (hhc : svc.healthCheck = some chk)
    (hret : 1 ≤ (HealthCheck.retries chk).toNat)
    (hinj : h2.failures = [Cmd.netConnect svc.name network (svc.name ++ newContainerSuffix)])
    (hfind : findContainer h2 (svc.name ++ newContainerSuffix) = some k)
    (hconn : (alkup k.nets network).isSome = true)
    (hkname : k.name = svc.name ++ newContainerSuffix)
    (hhealthy : ((h2.healthAt (svc.name ++ newContainerSuffix) h2.clock).trimmed == "healthy") = true)
    (hwf : ((h2.containers.map Container.id) ++ (h2.containers.map Container.name)).Nodup)
    (halive : ∃ c0 ∈ h2.containers, hasAlias c0 network svc.name = true) :
    (∃ e, (updateAfterStart h2 svc network).2.2 = Res.err e) ∧
    (∀ x, Cmd.rmForce x ∉ (updateAfterStart h2 svc network).2.1) ∧
    (∃ pre, (updateAfterStart h2 svc network).2.1 =
      pre ++ [Cmd.netConnect svc.name network (svc.name ++ newContainerSuffix)]) ∧
    (∃ c ∈ (updateAfterStart h2 svc network).1.containers,
      c.name = svc.name ++ newContainerSuffix) := by
  obtain ⟨c0, hc0mem, hc0alias⟩ := halive
  obtain ⟨old, hscan⟩ :=
    scanFind_some_of_alias h2.containers svc.name network hwf c0 hc0mem hc0alias
  have hPH : performHealthChecks h2 (svc.name ++ newContainerSuffix) svc.healthCheck =
      ({ h2 with clock := h2.clock + 1 },
       [Cmd.inspectHealth (svc.name ++ newContainerSuffix)], Res.ok ()) := by
    rw [hhc]
    unfold performHealthChecks
    dsimp only []
    rcases hm : (HealthCheck.retries chk).toNat with _ | n
    · rw [hm] at hret
      cases hret
    · exact healthLoop_healthy_first _ chk h2 n (by simp [Host.failsOn, hinj]) hfind hhealthy
  have hGCI2 : getContainerInfo { h2 with clock := h2.clock + 1 } svc.name network =
      ({ h2 with clock := h2.clock + 1 },
       Cmd.ps network ::
         scanCmds h2.containers svc.name network (idsOnNetwork h2.containers network),
       Res.ok old) := by
    have hGCI := getContainerInfo_spec { h2 with clock := h2.clock + 1 } svc.name network
      (by simp [Host.failsOn, hinj]) (fun cid => by simp [Host.failsOn, hinj])
    try dsimp at hGCI
    rw [hscan] at hGCI
    exact hGCI
  have hfind3 : findContainer { h2 with clock := h2.clock + 1 }
      (svc.name ++ newContainerSuffix) = some k := hfind
  have hND := dockerNetDisconnect_spec { h2 with clock := h2.clock + 1 } network
    (svc.name ++ newContainerSuffix) (by simp [Host.failsOn, hinj]) hfind3 hconn
  have hNCgen : ∀ hh : Host,
      hh.failures = [Cmd.netConnect svc.name network (svc.name ++ newContainerSuffix)] →
      dockerNetConnect hh svc.name network (svc.name ++ newContainerSuffix) =
        (hh, [Cmd.netConnect svc.name network (svc.name ++ newContainerSuffix)],
         Res.err "network connect failed") := by
    intro hh hfs
    exact dockerNetConnect_fails hh _ _ _ (by simp [Host.failsOn, hfs])
  have hkmem : k ∈ h2.containers := by
    unfold findContainer at hfind
    exact List.mem_of_find?_eq_some hfind
  unfold updateAfterStart
  rw [hPH]
  try dsimp only []
  unfold switchTraffic getContainerID
  try dsimp only []
  rw [hGCI2]
  simp only [Step.seq]
  rw [hND]
  simp only [Step.seq]
  rw [hNCgen _ (by simp [hinj])]
  simp only [Step.seq]
  try dsimp only []
  refine ⟨⟨_, rfl⟩, ?_, ?_, ?_⟩
  · intro x hx
    simp only [List.append_eq, List.cons_append, List.nil_append, List.mem_cons,
      List.mem_append] at hx
    rcases hx with h1 | h1 | (h1 | h1) | h1 | h1 | h1
    · cases h1
    · cases h1
    · rcases scanCmds_shape h2.containers svc.name network _ _ h1 with ⟨cid, hcid⟩
      cases hcid
    · cases h1
    · cases h1
    · cases h1
    · cases h1
  · refine ⟨Cmd.inspectHealth (svc.name ++ newContainerSuffix) ::
      (Cmd.ps network ::
        scanCmds h2.containers svc.name network (idsOnNetwork h2.containers network)) ++
      [Cmd.netDisconnect network (svc.name ++ newContainerSuffix)], ?_⟩
    simp
  · refine ⟨(if (k.id == k.id) = true then
        { k with nets := k.nets.filter (fun p => p.1 != network) } else k), ?_, ?_⟩
    · dsimp only []
      exact List.mem_map_of_mem _ hkmem
    · simp [hkname]

/-- C6: refuted and amended — if step (b) of the swap (reconnecting the
shadow to the network with alias S) fails after step (a) disconnected the
shadow, the engine does NOT force-remove the shadow, contrary to the spec:
update returns the failure immediately, the failed connect is the last
command issued, no docker rm -f appears anywhere in the trace, and a
container named S_new remains on the host. -/
theorem C6_connect_fail_amended (h : Host) (svc : Service) (network : String)
    (chk : HealthCheck)
    (hhc : svc.healthCheck = some chk)
    (hret : 1 ≤ (HealthCheck.retries chk).toNat)
    (hinj : h.failures = [Cmd.netConnect svc.name network (svc.name ++ newContainerSuffix)])
    (hreg : ∃ digest, alkup h.registry svc.image = some digest)
    (hfree : ∀ c ∈ h.containers,
      c.name ≠ svc.name ++ newContainerSuffix ∧ c.id ≠ svc.name ++ newContainerSuffix ∧
      c.name ≠ "cid-" ++ (svc.name ++ newContainerSuffix) ∧
      c.id ≠ "cid-" ++ (svc.name ++ newContainerSuffix))
    (hnet : h.networks.contains network = true)
    (hhealthy : ∀ t, ((h.healthAt (svc.name ++ newContainerSuffix) t).trimmed == "healthy") = true)
    (hwf : ((h.containers.map Container.id) ++ (h.containers.map Container.name)).Nodup)
    (halive : ∃ c0 ∈ h.containers, hasAlias c0 network svc.name = true) :
    (∃ e, (UpdateService h svc network).2.2 = Res.err e) ∧
    (∀ x, Cmd.rmForce x ∉ (UpdateService h svc network).2.1) ∧
    (∃ pre, (UpdateService h svc network).2.1 =
      pre ++ [Cmd.netConnect svc.name network (svc.name ++ newContainerSuffix)]) ∧
    (∃ c ∈ (UpdateService h svc network).1.containers,
      c.name = svc.name ++ newContainerSuffix) := by
  obtain ⟨digest, hd⟩ := hreg
  have hPull := pullImage_spec h svc.image digest
    (by simp [Host.failsOn, hinj]) (by simp [Host.failsOn, hinj]) hd
  have hname1 : nameTaken { h with images := alset h.images svc.image digest }
      (svc.name ++ newContainerSuffix) = false := by
    simp only [nameTaken]
    try dsimp
    rw [List.any_eq_false]
    intro c hc
    simp [(hfree c hc).1]
  have hRun := startContainer_spec { h with images := alset h.images svc.image digest }
    svc network newContainerSuffix (by simp [Host.failsOn, hinj]) hname1
    (by dsimp; exact hnet)
    (by dsimp; exact alkup_alset_self h.images svc.image digest)
  try dsimp at hRun
  have hfind2 : findContainer
      { h with images := alset h.images svc.image digest,
               containers := h.containers ++
                 [{ id := "cid-" ++ (svc.name ++ newContainerSuffix),
                    name := svc.name ++ newContainerSuffix, image := digest,
                    labels := [("aerie.config-hash", ServiceHash svc)],
                    nets := [(network, [svc.name ++ newContainerSuffix])], running := true }] }
      (svc.name ++ newContainerSuffix) =
      some { id := "cid-" ++ (svc.name ++ newContainerSuffix),
             name := svc.name ++ newContainerSuffix, image := digest,
             labels := [("aerie.config-hash", ServiceHash svc)],
             nets := [(network, [svc.name ++ newContainerSuffix])], running := true } := by
    unfold findContainer
    dsimp
    apply find?_append_singleton_of_none
    · intro a ha
      simp [(hfree a ha).1, (hfree a ha).2.1]
    · simp
  have hwf2 : ((((h.containers ++
      [({ id := "cid-" ++ (svc.name ++ newContainerSuffix),
          name := svc.name ++ newContainerSuffix, image := digest,
          labels := [("aerie.config-hash", ServiceHash svc)],
          nets := [(network, [svc.name ++ newContainerSuffix])],
          running := true } : Container)]).map Container.id)) ++
      (((h.containers ++
      [({ id := "cid-" ++ (svc.name ++ newContainerSuffix),
          name := svc.name ++ newContainerSuffix, image := digest,
          labels := [("aerie.config-hash", ServiceHash svc)],
          nets := [(network, [svc.name ++ newContainerSuffix])],
          running := true } : Container)]).map Container.name))).Nodup := by
    simp only [List.map_append, List.map_cons, List.map_nil]
    apply nodup_extend_pair _ _ hwf
    · intro hmm
      rcases List.mem_map.mp hmm with ⟨c, hc, hceq⟩
      exact (hfree c hc).2.2.2 hceq
    · intro hmm
      rcases List.mem_map.mp hmm with ⟨c, hc, hceq⟩
      exact (hfree c hc).2.2.1 hceq
    · intro hmm
      rcases List.mem_map.mp hmm with ⟨c, hc, hceq⟩
      exact (hfree c hc).2.1 hceq
    · intro hmm
      rcases List.mem_map.mp hmm with ⟨c, hc, hceq⟩
      exact (hfree c hc).1 hceq
    · intro heq
      have hlen := congrArg String.length heq
      rw [String.length_append] at hlen
      have h4 : "cid-".length = 4 := rfl
      rw [h4] at hlen
      omega
  obtain ⟨c0, hc0mem, hc0alias⟩ := halive
  have hMain := updateAfterStart_connect_fail
    { h with images := alset h.images svc.image digest,
             containers := h.containers ++
               [{ id := "cid-" ++ (svc.name ++ newContainerSuffix),
                  name := svc.name ++ newContainerSuffix, image := digest,
                  labels := [("aerie.config-hash", ServiceHash svc)],
                  nets := [(network, [svc.name ++ newContainerSuffix])], running := true }] }
    svc network chk
    { id := "cid-" ++ (svc.name ++ newContainerSuffix),
      name := svc.name ++ newContainerSuffix, image := digest,
      labels := [("aerie.config-hash", ServiceHash svc)],
      nets := [(network, [svc.name ++ newContainerSuffix])], running := true }
    hhc hret hinj hfind2 (by simp [alkup]) rfl (hhealthy h.clock) hwf2
    ⟨c0, List.mem_append_left _ hc0mem, hc0alias⟩
  rcases hAS0 : updateAfterStart
      { h with images := alset h.images svc.image digest,
               containers := h.containers ++
                 [{ id := "cid-" ++ (svc.name ++ newContainerSuffix),
                    name := svc.name ++ newContainerSuffix, image := digest,
                    labels := [("aerie.config-hash", ServiceHash svc)],
                    nets := [(network, [svc.name ++ newContainerSuffix])], running := true }] }
      svc network with ⟨hF, tF, rF⟩
  rw [hAS0] at hMain
  try dsimp at hMain
  obtain ⟨⟨e, he⟩, hnorm, ⟨pre, hpre⟩, hshadow⟩ := hMain
  have hU : UpdateService h svc network =
      (hF, [Cmd.pull svc.image, Cmd.images svc.image] ++
        ([Cmd.run svc network newContainerSuffix (ServiceHash svc)] ++ tF), rF) := by
    unfold UpdateService
    rw [hPull]
    simp only [Step.seq]
    rw [hRun]
    dsimp
    rw [hAS0]
  rw [hU]
  dsimp
  refine ⟨⟨e, he⟩, ?_, ?_, hshadow⟩
  · intro x hx
    rcases List.mem_cons.mp hx with heq | hx1
    · cases heq
    · rcases List.mem_cons.mp hx1 with heq | hx2
      · cases heq
      · rcases List.mem_cons.mp hx2 with heq | hx3
        · cases heq
        · exact hnorm x hx3
  · refine ⟨[Cmd.pull svc.image, Cmd.images svc.image,
      Cmd.run svc network newContainerSuffix (ServiceHash svc)] ++ pre, ?_⟩
    rw [hpre]
    simp

/-- Witness for the amended C6 theorem at a concrete host: the single failing
command is the step (b) reconnect of the shadow web_new. -/
theorem C6_connect_fail_amended_witness :
    (∃ e, (UpdateService hostConnectFail svcWeb "net").2.2 = Res.err e) ∧
    (∀ x, Cmd.rmForce x ∉ (UpdateService hostConnectFail svcWeb "net").2.1) ∧
    (∃ pre, (UpdateService hostConnectFail svcWeb "net").2.1 =
      pre ++ [Cmd.netConnect "web" "net" ("web" ++ newContainerSuffix)]) ∧
    (∃ c ∈ (UpdateService hostConnectFail svcWeb "net").1.containers,
      c.name = "web" ++ newContainerSuffix) :=
  C6_connect_fail_amended hostConnectFail svcWeb "net" chkW rfl (by decide) (by decide)
    ⟨"sha256:new", by decide⟩ (by decide) (by decide) (fun _ => rfl)
    (by decide) (by decide)

/-- Counterexample to the literal C6 claim: on a host where only the step (b)
reconnect fails, update(web, net) errs, yet no force-remove of web_new is
issued anywhere — the shadow container web_new is still on the host and the
failed reconnect is the last command of the trace. -/
theorem C6_counterexample :
    (UpdateService hostConnectFail svcWeb "net").2.2.isErr = true ∧
    Cmd.rmForce "web_new" ∉ (UpdateService hostConnectFail svcWeb "net").2.1 ∧
    ((UpdateService hostConnectFail svcWeb "net").1.containers.any
      (fun c => c.name == "web_new")) = true ∧
    (UpdateService hostConnectFail svcWeb "net").2.1.getLast? =
      some (Cmd.netConnect "web" "net" "web_new") := by
  decide

/-- Witness for C1 at a concrete host: the successful swap on hostBase. -/
theorem C1_update_swap_sequence_witness :
    ∃ (healthT scanT : List Cmd) (oldContID : String),
      (UpdateService hostBase svcWeb "net").2.1 =
        [Cmd.pull svcWeb.image, Cmd.images svcWeb.image,
         Cmd.run svcWeb "net" newContainerSuffix (ServiceHash svcWeb)] ++
        healthT ++ scanT ++
        [Cmd.netDisconnect "net" (svcWeb.name ++ newContainerSuffix),
         Cmd.netConnect svcWeb.name "net" (svcWeb.name ++ newContainerSuffix),
         Cmd.sleep 1000000000,
         Cmd.netDisconnect "net" oldContID,
         Cmd.stop oldContID,
         Cmd.rm oldContID,
         Cmd.rename (svcWeb.name ++ newContainerSuffix) svcWeb.name] ∧
      (∀ c ∈ healthT, isHealthCmd (svcWeb.name ++ newContainerSuffix) c = true) ∧
      (∀ c ∈ scanT, isScanCmd "net" c = true) :=
  C1_update_swap_sequence hostBase svcWeb "net" (by decide)

/-- Witness for C2 at a concrete host: the shadow stays unhealthy on
hostUnhealthy, update rolls it back. -/
theorem C2_update_unhealthy_rollback_witness :
    (∃ e, (UpdateService hostUnhealthy svcWeb "net").2.2 = Res.err e) ∧
    (UpdateService hostUnhealthy svcWeb "net").1.containers = hostUnhealthy.containers ∧
    (∀ c ∈ (UpdateService hostUnhealthy svcWeb "net").1.containers,
      c.name ≠ svcWeb.name ++ newContainerSuffix) ∧
    Cmd.rmForce (svcWeb.name ++ newContainerSuffix) ∈
      (UpdateService hostUnhealthy svcWeb "net").2.1 ∧
    (∀ c ∈ (UpdateService hostUnhealthy svcWeb "net").2.1, isSwapCmd c = false) ∧
    (∀ x, Cmd.rmForce x ∈ (UpdateService hostUnhealthy svcWeb "net").2.1 →
      x = svcWeb.name ++ newContainerSuffix) :=
  C2_update_unhealthy_rollback hostUnhealthy svcWeb "net" chkW rfl rfl
    ⟨"sha256:new", by decide⟩ (by decide) (by decide)
    (fun _ => of_decide_eq_true rfl)

/-- Witness for C3 at a concrete host: reconcile of an unchanged service on
hostSteady is a pull-and-inspect no-op, twice. -/
theorem C3_reconcile_noop_witness :
    (deployService hostSteady svcWeb "net").2.2 = Res.ok () ∧
    (∀ c ∈ (deployService hostSteady svcWeb "net").2.1, isMutatingCmd c = false) ∧
    Cmd.pull svcWeb.image ∈ (deployService hostSteady svcWeb "net").2.1 ∧
    (deployService hostSteady svcWeb "net").1.containers = hostSteady.containers ∧
    (deployService hostSteady svcWeb "net").1.networks = hostSteady.networks ∧
    (deployService hostSteady svcWeb "net").1.volumes = hostSteady.volumes ∧
    (deployService (deployService hostSteady svcWeb "net").1 svcWeb "net").2.1 =
      (deployService hostSteady svcWeb "net").2.1 ∧
    (deployService (deployService hostSteady svcWeb "net").1 svcWeb "net").2.2 = Res.ok () :=
  C3_reconcile_noop hostSteady svcWeb "net" "sha256:new" rfl (by decide)
    ⟨contWebSteady, by decide⟩ (by decide)

/-- Witness for C5 at a concrete host: installing and updating a service with
no declared health check on hostFresh panics right after the run. -/
theorem C5_nil_healthcheck_panics_witness :
    (InstallService hostFresh svcWebNoHC "net").2.2 = Res.panic ∧
    (InstallService hostFresh svcWebNoHC "net").2.1 =
      [Cmd.pull svcWebNoHC.image, Cmd.images svcWebNoHC.image,
       Cmd.run svcWebNoHC "net" "" (ServiceHash svcWebNoHC)] ∧
    (UpdateService hostFresh svcWebNoHC "net").2.2 = Res.panic ∧
    (UpdateService hostFresh svcWebNoHC "net").2.1 =
      [Cmd.pull svcWebNoHC.image, Cmd.images svcWebNoHC.image,
       Cmd.run svcWebNoHC "net" newContainerSuffix (ServiceHash svcWebNoHC)] :=
  C5_nil_healthcheck_panics hostFresh svcWebNoHC "net" rfl rfl
    ⟨"sha256:new", by decide⟩ (by decide) (by decide) (by decide)

/-- C4: corrected — the fingerprint is invariant under permutation of the
env var list and the volume list provided the fmt "%v" renderings used as
sort keys distinguish the env vars (sort.Slice's less is strict, so
insertion keeps input order among render-equal elements and the claim fails
without this proviso; volumes are compared as plain strings, where equal
renderings mean equal elements, so no proviso is needed there). -/
theorem C4_fingerprint_perm_amended (s : Service) (env' : List EnvVar) (vol' : List String)
    (henv : env'.Perm (Service.envVars s)) (hvol : vol'.Perm (Service.volumes s))
    (hinj : ∀ a ∈ env', ∀ b ∈ env', goShowEnvVar a = goShowEnvVar b → a = b) :
    ServiceHash { s with envVars := env', volumes := vol' } = ServiceHash s := by
  unfold ServiceHash
  refine congrArg sha256hex ?_
  unfold canonicalServiceJson
  dsimp
  rw [sortEnvVars_eq_of_perm env' (Service.envVars s) henv hinj,
    sortStrings_eq_of_perm vol' (Service.volumes s) hvol]

/-- Witness for the amended C4 theorem: permuting both the env vars and the
volumes of a service with distinct renderings leaves the hash unchanged. -/
theorem C4_fingerprint_perm_amended_witness :
    ServiceHash { sC4W with
      envVars := [{ name := "Q", value := "2" }, { name := "P", value := "1" }],
      volumes := ["b:y", "a:x"] } = ServiceHash sC4W :=
  C4_fingerprint_perm_amended sC4W
    [{ name := "Q", value := "2" }, { name := "P", value := "1" }]
    ["b:y", "a:x"] (by decide) (by decide) (by decide)

/-- Counterexample to the literal C4 claim: two env vars whose fmt "%v"
renderings collide ("\x7bA B C\x7d" for both) are kept in input order by the
stable sort, so swapping them changes the canonical encoding and the hash. -/
theorem C4_counterexample :
    ({ sC4 with
        envVars := [{ name := "A B", value := "C" },
                    { name := "A", value := "B C" }] } : Service).envVars.Perm
      sC4.envVars ∧
    (ServiceHash { sC4 with
        envVars := [{ name := "A B", value := "C" },
                    { name := "A", value := "B C" }] } == ServiceHash sC4) = false := by
  constructor
  · decide
  · decide

/-- C9: corrected — the template ranges over ALL declared services when
emitting upstream blocks, so every service in the config contributes an
upstream block pointing at service_name:service_port, including services
whose routes list is empty (the spec claims those produce no block). -/
theorem C9_upstream_every_service (cfg : Config) (svc : Service)
    (hmem : svc ∈ cfg.services) :
    occursIn (upstreamFor svc) (GenerateNginxConfig cfg) :=
  nginx_upstream_of_mem cfg svc hmem

/-- Witness for the amended C9 theorem on a concrete config. -/
theorem C9_upstream_every_service_witness :
    occursIn (upstreamFor svcC9) (GenerateNginxConfig cfgC9) :=
  C9_upstream_every_service cfgC9 svcC9 (by decide)

/-- Counterexample to the literal C9 claim: svcC9 is declared with an empty
routes list, yet its upstream block still appears in the rendered config. -/
theorem C9_counterexample :
    svcC9.routes = [] ∧ occursIn (upstreamFor svcC9) (GenerateNginxConfig cfgC9) :=
  ⟨rfl, nginx_upstream_of_mem cfgC9 svcC9 (by decide)⟩

/-- C10: for every executor result pairing a nil output reader with an
error — which the local executor produces on any non-zero exit and the SSH
executor on connection, session-creation, or command-start failure — the
engine's runCommand reads the reader unconditionally and panics with a nil
dereference instead of returning the executor's error. -/
theorem C10_nil_reader_panic :
    (∀ res : Option String × Option String, res.1 = none →
      runCommandGo res = RunOutcome.panicked) ∧
    (∀ out, (localExecRun false out).1 = none ∧
      (localExecRun false out).2.isSome = true) ∧
    ((sshExecRun .connectFailed).1 = none ∧
      (sshExecRun .connectFailed).2.isSome = true) ∧
    ((sshExecRun .sessionFailed).1 = none ∧
      (sshExecRun .sessionFailed).2.isSome = true) ∧
    ((sshExecRun .startFailed).1 = none ∧
      (sshExecRun .startFailed).2.isSome = true) ∧
    (∀ out, runCommandGo (localExecRun false out) = RunOutcome.panicked) ∧
    runCommandGo (sshExecRun .connectFailed) = RunOutcome.panicked ∧
    runCommandGo (sshExecRun .sessionFailed) = RunOutcome.panicked ∧
    runCommandGo (sshExecRun .startFailed) = RunOutcome.panicked := by
  refine ⟨?_, fun out => ⟨rfl, rfl⟩, ⟨rfl, rfl⟩, ⟨rfl, rfl⟩, ⟨rfl, rfl⟩,
    fun out => rfl, rfl, rfl, rfl⟩
  intro res h
  unfold runCommandGo
  rw [h]

/-- Witness for C10: runCommand on the local executor's non-zero-exit result
panics. -/
theorem C10_nil_reader_panic_witness :
    runCommandGo (none, some "command execution failed") = RunOutcome.panicked :=
  C10_nil_reader_panic.1 (none, some "command execution failed") rfl

/-! ## Command-vocabulary lemmas for the Deploy ordering and idempotence
claims: the service and proxy phases never issue a prerequisite
(network/volume existence or creation) command. -/

theorem Step.seq_trace_mem {α β : Type} (s : Step α) (f : Host → α → Step β) (c : Cmd)
    (hc : c ∈ (Step.seq s f).2.1) :
    c ∈ s.2.1 ∨ ∃ a, s.2.2 = Res.ok a ∧ c ∈ (f s.1 a).2.1 := by
  rcases s with ⟨h1, t1, r1⟩
  cases r1 with
  | ok a =>
    rcases hf : f h1 a with ⟨h2, t2, r2⟩
    unfold Step.seq at hc
    dsimp at hc
    rw [hf] at hc
    dsimp at hc
    rcases List.mem_append.mp hc with h1c | h2c
    · exact Or.inl h1c
    · right
      refine ⟨a, rfl, ?_⟩
      dsimp
      rw [hf]
      exact h2c
  | err e =>
    unfold Step.seq at hc
    dsimp at hc
    exact Or.inl hc
  | panic =>
    unfold Step.seq at hc
    dsimp at hc
    exact Or.inl hc

theorem dockerNetworkLs_trace (h : Host) :
    (dockerNetworkLs h).2.1 = [Cmd.netLs] := by
  unfold dockerNetworkLs
  try dsimp only []
  repeat' split
  all_goals rfl

theorem dockerNetworkCreate_trace (h : Host) (network : String) :
    (dockerNetworkCreate h network).2.1 = [Cmd.netCreate network] := by
  unfold dockerNetworkCreate
  dsimp only []
  repeat' split
  all_goals rfl

theorem dockerVolumeInspect_trace (h : Host) (volume : String) :
    (dockerVolumeInspect h volume).2.1 = [Cmd.volInspect volume] := by
  unfold dockerVolumeInspect
  dsimp only []
  repeat' split
  all_goals rfl

theorem dockerVolumeCreate_trace (h : Host) (volume : String) :
    (dockerVolumeCreate h volume).2.1 = [Cmd.volCreate volume] := by
  unfold dockerVolumeCreate
  dsimp only []
  repeat' split
  all_goals rfl

theorem execMkdir_trace (h : Host) (path : String) :
    (execMkdir h path).2.1 = [Cmd.mkdir path] := by
  unfold execMkdir
  try dsimp only []
  repeat' split
  all_goals rfl

theorem execEchoHome_trace (h : Host) :
    (execEchoHome h).2.1 = [Cmd.echoHome] := by
  unfold execEchoHome
  try dsimp only []
  repeat' split
  all_goals rfl

theorem execCopyTo_trace (h : Host) (dst : String) :
    (execCopyTo h dst).2.1 = [Cmd.copyTo dst] := by
  unfold execCopyTo
  try dsimp only []
  repeat' split
  all_goals rfl

theorem pullImage_vocab (h : Host) (img : String) :
    ∀ c ∈ (pullImage h img).2.1, isPrereqCmd c = false := by
  intro c hc
  unfold pullImage at hc
  rcases Step.seq_trace_mem _ _ c hc with h1 | ⟨a, _, h2⟩
  · rw [dockerPull_trace] at h1
    rcases List.mem_singleton.mp h1 with rfl
    rfl
  · rw [dockerImagesId_trace] at h2
    rcases List.mem_singleton.mp h2 with rfl
    rfl

theorem inspectLoop_vocab (service network : String) :
    ∀ (ids : List String) (h : Host),
      ∀ c ∈ (inspectLoop service network h ids).2.1, isPrereqCmd c = false := by
  intro ids
  induction ids with
  | nil =>
    intro h c hc
    simp [inspectLoop] at hc
  | cons cid rest ih =>
    intro h c hc
    unfold inspectLoop at hc
    rcases hq : dockerInspect h cid with ⟨h1, t1, r1⟩
    have ht1 : t1 = [Cmd.inspect cid] := by
      have hq2 := dockerInspect_trace h cid
      rw [hq] at hq2
      exact hq2
    rw [hq] at hc
    cases r1 with
    | ok k =>
      dsimp at hc
      by_cases halias : hasAlias k network service = true
      · rw [if_pos halias] at hc
        dsimp at hc
        rw [ht1] at hc
        rcases List.mem_singleton.mp hc with rfl
        rfl
      · rw [if_neg (by simpa using halias)] at hc
        rcases hr : inspectLoop service network h1 rest with ⟨h2, t2, r2⟩
        rw [hr] at hc
        dsimp at hc
        rcases List.mem_append.mp hc with hA | hB
        · rw [ht1] at hA
          rcases List.mem_singleton.mp hA with rfl
          rfl
        · have := ih h1 c
          rw [hr] at this
          exact this hB
    | err e =>
      dsimp at hc
      rcases hr : inspectLoop service network h1 rest with ⟨h2, t2, r2⟩
      rw [hr] at hc
      dsimp at hc
      rcases List.mem_append.mp hc with hA | hB
      · rw [ht1] at hA
        rcases List.mem_singleton.mp hA with rfl
        rfl
      · have := ih h1 c
        rw [hr] at this
        exact this hB
    | panic =>
      dsimp at hc
      rw [ht1] at hc
      rcases List.mem_singleton.mp hc with rfl
      rfl

theorem getContainerInfo_vocab (h : Host) (service network : String) :
    ∀ c ∈ (getContainerInfo h service network).2.1, isPrereqCmd c = false := by
  intro c hc
  unfold getContainerInfo at hc
  rcases Step.seq_trace_mem _ _ c hc with h1 | ⟨a, _, h2⟩
  · rw [dockerPs_trace] at h1
    rcases List.mem_singleton.mp h1 with rfl
    rfl
  · exact inspectLoop_vocab service network a _ c h2

theorem healthCmd_not_prereq (container : String) (c : Cmd)
    (hh : isHealthCmd container c = true) : isPrereqCmd c = false := by
  cases c <;> simp [isHealthCmd, isPrereqCmd] at *

theorem performHealthChecks_vocab (h : Host) (container : String)
    (hcOpt : Option HealthCheck) :
    ∀ c ∈ (performHealthChecks h container hcOpt).2.1, isPrereqCmd c = false := by
  intro c hc
  cases hcOpt with
  | none => simp [performHealthChecks] at hc
  | some chk =>
    unfold performHealthChecks at hc
    dsimp at hc
    exact healthCmd_not_prereq container c
      (healthLoop_trace_shape container chk _ h c hc)

theorem cleanup_vocab (h : Host) (oldContID service : String) :
    ∀ c ∈ (cleanup h oldContID service).2.1, isPrereqCmd c = false := by
  intro c hc
  unfold cleanup at hc
  rcases Step.seq_trace_mem _ _ c hc with h1 | ⟨a, _, h2⟩
  · rw [dockerStop_trace] at h1
    rcases List.mem_singleton.mp h1 with rfl
    rfl
  · rcases Step.seq_trace_mem _ _ c h2 with h2a | ⟨b, _, h2b⟩
    · rw [dockerRm_trace] at h2a
      rcases List.mem_singleton.mp h2a with rfl
      rfl
    · rw [dockerRename_trace] at h2b
      rcases List.mem_singleton.mp h2b with rfl
      rfl

theorem switchTraffic_vocab (h : Host) (service network : String) :
    ∀ c ∈ (switchTraffic h service network).2.1, isPrereqCmd c = false := by
  intro c hc
  unfold switchTraffic at hc
  try dsimp only [] at hc
  rcases Step.seq_trace_mem _ _ c hc with h1 | ⟨a, _, h2⟩
  · unfold getContainerID at h1
    rcases Step.seq_trace_mem _ _ c h1 with h1a | ⟨b, _, h1b⟩
    · exact getContainerInfo_vocab _ _ _ c h1a
    · simp at h1b
  · rcases Step.seq_trace_mem _ _ c h2 with h2a | ⟨b, _, h2b⟩
    · rw [dockerNetDisconnect_trace] at h2a
      rcases List.mem_singleton.mp h2a with rfl
      rfl
    · rcases Step.seq_trace_mem _ _ c h2b with h3a | ⟨d, _, h3b⟩
      · rw [dockerNetConnect_trace] at h3a
        rcases List.mem_singleton.mp h3a with rfl
        rfl
      · rcases Step.seq_trace_mem _ _ c h3b with h4a | ⟨e, _, h4b⟩
        · simp only [sleepEv] at h4a
          rcases List.mem_singleton.mp h4a with rfl
          rfl
        · rcases Step.seq_trace_mem _ _ c h4b with h5a | ⟨g, _, h5b⟩
          · rw [dockerNetDisconnect_trace] at h5a
            rcases List.mem_singleton.mp h5a with rfl
            rfl
          · simp at h5b

theorem updateAfterStart_vocab (h2 : Host) (svc : Service) (network : String) :
    ∀ c ∈ (updateAfterStart h2 svc network).2.1, isPrereqCmd c = false := by
  intro c hc
  unfold updateAfterStart at hc
  rcases hp : performHealthChecks h2 (svc.name ++ newContainerSuffix) svc.healthCheck
    with ⟨h3, t3, r3⟩
  have ht3 : ∀ c ∈ t3, isPrereqCmd c = false := by
    have hv := performHealthChecks_vocab h2 (svc.name ++ newContainerSuffix) svc.healthCheck
    rw [hp] at hv
    exact hv
  rw [hp] at hc
  cases r3 with
  | ok u =>
    dsimp at hc
    rcases hs : Step.seq (switchTraffic h3 svc.name network)
        (fun h4 oldContID => cleanup h4 oldContID svc.name) with ⟨h5, t5, r5⟩
    rw [hs] at hc
    dsimp at hc
    rcases List.mem_append.mp hc with hA | hB
    · exact ht3 c hA
    · have hseq : c ∈ (Step.seq (switchTraffic h3 svc.name network)
          (fun h4 oldContID => cleanup h4 oldContID svc.name)).2.1 := by
        rw [hs]
        exact hB
      rcases Step.seq_trace_mem _ _ c hseq with h1 | ⟨a, _, h2c⟩
      · exact switchTraffic_vocab _ _ _ c h1
      · exact cleanup_vocab _ _ _ c h2c
  | err e =>
    dsimp at hc
    rcases hr : dockerRmForce h3 (svc.name ++ newContainerSuffix) with ⟨h4, t4, r4⟩
    have ht4 : t4 = [Cmd.rmForce (svc.name ++ newContainerSuffix)] := by
      have hq := dockerRmForce_trace h3 (svc.name ++ newContainerSuffix)
      rw [hr] at hq
      exact hq
    rw [hr] at hc
    cases r4 with
    | ok u =>
      dsimp at hc
      rcases List.mem_append.mp hc with hA | hB
      · exact ht3 c hA
      · rw [ht4] at hB
        rcases List.mem_singleton.mp hB with rfl
        rfl
    | err e2 =>
      dsimp at hc
      rcases List.mem_append.mp hc with hA | hB
      · exact ht3 c hA
      · rw [ht4] at hB
        rcases List.mem_singleton.mp hB with rfl
        rfl
    | panic =>
      dsimp at hc
      rcases List.mem_append.mp hc with hA | hB
      · exact ht3 c hA
      · rw [ht4] at hB
        rcases List.mem_singleton.mp hB with rfl
        rfl
  | panic =>
    dsimp at hc
    exact ht3 c hc

theorem UpdateService_vocab (h : Host) (svc : Service) (network : String) :
    ∀ c ∈ (UpdateService h svc network).2.1, isPrereqCmd c = false := by
  intro c hc
  unfold UpdateService at hc
  rcases Step.seq_trace_mem _ _ c hc with h1 | ⟨a, _, h2⟩
  · exact pullImage_vocab _ _ c h1
  · rcases Step.seq_trace_mem _ _ c h2 with h2a | ⟨b, _, h2b⟩
    · rw [startContainer_trace] at h2a
      rcases List.mem_singleton.mp h2a with rfl
      rfl
    · exact updateAfterStart_vocab _ _ _ c h2b

theorem InstallService_vocab (h : Host) (svc : Service) (network : String) :
    ∀ c ∈ (InstallService h svc network).2.1, isPrereqCmd c = false := by
  intro c hc
  unfold InstallService at hc
  rcases Step.seq_trace_mem _ _ c hc with h1 | ⟨a, _, h2⟩
  · exact pullImage_vocab _ _ c h1
  · rcases Step.seq_trace_mem _ _ c h2 with h2a | ⟨b, _, h2b⟩
    · rw [startContainer_trace] at h2a
      rcases List.mem_singleton.mp h2a with rfl
      rfl
    · exact performHealthChecks_vocab _ _ _ c h2b

theorem serviceChanged_vocab (h : Host) (svc : Service) (network : String) :
    ∀ c ∈ (serviceChanged h svc network).2.1, isPrereqCmd c = false := by
  intro c hc
  unfold serviceChanged at hc
  rcases Step.seq_trace_mem _ _ c hc with h1 | ⟨a, _, h2⟩
  · exact getContainerInfo_vocab _ _ _ c h1
  · simp at h2

theorem deployService_vocab (h : Host) (svc : Service) (network : String) :
    ∀ c ∈ (deployService h svc network).2.1, isPrereqCmd c = false := by
  intro c hc
  unfold deployService at hc
  rcases Step.seq_trace_mem _ _ c hc with h1 | ⟨hash, _, h2⟩
  · exact pullImage_vocab _ _ c h1
  · rcases hg : getContainerInfo (pullImage h svc.image).1 svc.name network
      with ⟨h2', t2, r2⟩
    have ht2 : ∀ c ∈ t2, isPrereqCmd c = false := by
      have hv := getContainerInfo_vocab (pullImage h svc.image).1 svc.name network
      rw [hg] at hv
      exact hv
    rw [hg] at h2
    cases r2 with
    | ok info =>
      dsimp at h2
      by_cases himg : hash ≠ info.image
      · rw [if_pos himg] at h2
        rcases hu : UpdateService h2' svc network with ⟨h3, t3, r3⟩
        have ht3 : ∀ c ∈ t3, isPrereqCmd c = false := by
          have hv := UpdateService_vocab h2' svc network
          rw [hu] at hv
          exact hv
        rw [hu] at h2
        dsimp at h2
        rcases List.mem_append.mp h2 with hA | hB
        · exact ht2 c hA
        · exact ht3 c hB
      · rw [if_neg himg] at h2
        rcases hsc : serviceChanged h2' svc network with ⟨h3, t3, r3⟩
        have ht3 : ∀ c ∈ t3, isPrereqCmd c = false := by
          have hv := serviceChanged_vocab h2' svc network
          rw [hsc] at hv
          exact hv
        rw [hsc] at h2
        cases r3 with
        | ok changed =>
          dsimp at h2
          by_cases hch : changed = true
          · rw [if_pos hch] at h2
            rcases hu : UpdateService h3 svc network with ⟨h4, t4, r4⟩
            have ht4 : ∀ c ∈ t4, isPrereqCmd c = false := by
              have hv := UpdateService_vocab h3 svc network
              rw [hu] at hv
              exact hv
            rw [hu] at h2
            dsimp at h2
            rcases List.mem_append.mp h2 with hA | hB
            · rcases List.mem_append.mp hA with hA1 | hA2
              · exact ht2 c hA1
              · exact ht3 c hA2
            · exact ht4 c hB
          · rw [if_neg hch] at h2
            dsimp at h2
            rcases List.mem_append.mp h2 with hA | hB
            · exact ht2 c hA
            · exact ht3 c hB
        | err e =>
          dsimp at h2
          rcases List.mem_append.mp h2 with hA | hB
          · exact ht2 c hA
          · exact ht3 c hB
        | panic =>
          dsimp at h2
          rcases List.mem_append.mp h2 with hA | hB
          · exact ht2 c hA
          · exact ht3 c hB
    | err e =>
      dsimp at h2
      rcases hi : InstallService h2' svc network with ⟨h3, t3, r3⟩
      have ht3 : ∀ c ∈ t3, isPrereqCmd c = false := by
        have hv := InstallService_vocab h2' svc network
        rw [hi] at hv
        exact hv
      rw [hi] at h2
      dsimp at h2
      rcases List.mem_append.mp h2 with hA | hB
      · exact ht2 c hA
      · exact ht3 c hB
    | panic =>
      dsimp at h2
      exact ht2 c h2

theorem projectFolder_vocab (h : Host) (project : String) :
    ∀ c ∈ (projectFolder h project).2.1, isPrereqCmd c = false := by
  intro c hc
  unfold projectFolder at hc
  rcases Step.seq_trace_mem _ _ c hc with h1 | ⟨a, _, h2⟩
  · rw [execEchoHome_trace] at h1
    rcases List.mem_singleton.mp h1 with rfl
    rfl
  · simp at h2

theorem makeProjectFolder_vocab (h : Host) (project : String) :
    ∀ c ∈ (makeProjectFolder h project).2.1, isPrereqCmd c = false := by
  intro c hc
  unfold makeProjectFolder at hc
  rcases Step.seq_trace_mem _ _ c hc with h1 | ⟨a, _, h2⟩
  · exact projectFolder_vocab _ _ c h1
  · rw [execMkdir_trace] at h2
    rcases List.mem_singleton.mp h2 with rfl
    rfl

theorem prepareProjectFolder_vocab (h : Host) (project : String) :
    ∀ c ∈ (prepareProjectFolder h project).2.1, isPrereqCmd c = false := by
  intro c hc
  unfold prepareProjectFolder at hc
  rcases Step.seq_trace_mem _ _ c hc with h1 | ⟨a, _, h2⟩
  · exact makeProjectFolder_vocab _ _ c h1
  · exact projectFolder_vocab _ _ c h2

theorem prepareNginxConfig_vocab (h : Host) (cfg : Config) (projectPath : String) :
    ∀ c ∈ (prepareNginxConfig h cfg projectPath).2.1, isPrereqCmd c = false := by
  intro c hc
  unfold prepareNginxConfig at hc
  try dsimp only [] at hc
  rcases Step.seq_trace_mem _ _ c hc with h1 | ⟨a, _, h2⟩
  · rw [execMkdir_trace] at h1
    rcases List.mem_singleton.mp h1 with rfl
    rfl
  · rcases Step.seq_trace_mem _ _ c h2 with h2a | ⟨b, _, h2b⟩
    · rw [execCopyTo_trace] at h2a
      rcases List.mem_singleton.mp h2a with rfl
      rfl
    · simp at h2b

theorem StartProxy_vocab (h : Host) (project : String) (cfg : Config) (network : String) :
    ∀ c ∈ (StartProxy h project cfg network).2.1, isPrereqCmd c = false := by
  intro c hc
  unfold StartProxy at hc
  rcases Step.seq_trace_mem _ _ c hc with h1 | ⟨a, _, h2⟩
  · exact prepareProjectFolder_vocab _ _ c h1
  · rcases Step.seq_trace_mem _ _ c h2 with h2a | ⟨b, _, h2b⟩
    · exact prepareNginxConfig_vocab _ _ _ c h2a
    · exact deployService_vocab _ _ _ c h2b

theorem deployLoop_vocab (network : String) :
    ∀ (svcs : List Service) (h : Host),
      ∀ c ∈ (deployLoop network h svcs).2.1, isPrereqCmd c = false := by
  intro svcs
  induction svcs with
  | nil =>
    intro h c hc
    simp [deployLoop] at hc
  | cons svc rest ih =>
    intro h c hc
    unfold deployLoop at hc
    rcases Step.seq_trace_mem _ _ c hc with h1 | ⟨a, _, h2⟩
    · exact deployService_vocab _ _ _ c h1
    · exact ih _ c h2

theorem Step.seq_trace_prefix {α β : Type} (s : Step α) (f : Host → α → Step β) :
    ∃ rest, (Step.seq s f).2.1 = s.2.1 ++ rest := by
  rcases s with ⟨h1, t1, r1⟩
  cases r1 with
  | ok a =>
    rcases hf : f h1 a with ⟨h2, t2, r2⟩
    exact ⟨t2, by simp [Step.seq, hf]⟩
  | err e =>
    exact ⟨[], by simp [Step.seq]⟩
  | panic =>
    exact ⟨[], by simp [Step.seq]⟩

theorem pullImage_head (h : Host) (img : String) :
    ∃ rest, (pullImage h img).2.1 = Cmd.pull img :: rest := by
  unfold pullImage
  obtain ⟨rest, hrest⟩ := Step.seq_trace_prefix (dockerPull h img)
    (fun h1 _ => dockerImagesId h1 img)
  rw [hrest, dockerPull_trace]
  exact ⟨rest, rfl⟩

theorem deployService_head (h : Host) (svc : Service) (network : String) :
    ∃ rest, (deployService h svc network).2.1 = Cmd.pull svc.image :: rest := by
  obtain ⟨r0, hr0⟩ := pullImage_head h svc.image
  unfold deployService
  obtain ⟨rest, hrest⟩ := Step.seq_trace_prefix (pullImage h svc.image) _
  rw [hrest, hr0]
  exact ⟨r0 ++ rest, by simp⟩

theorem deployLoop_decomp (network : String) :
    ∀ (svcs : List Service) (h : Host),
      ∃ chunks : List (List Cmd),
        (deployLoop network h svcs).2.1 = chunks.flatten ∧
        List.Forall₂ (fun (t : List Cmd) (svc : Service) =>
          ∃ rest, t = Cmd.pull svc.image :: rest)
          chunks (svcs.take chunks.length) ∧
        chunks.length ≤ svcs.length ∧
        ((deployLoop network h svcs).2.2 = Res.ok () → chunks.length = svcs.length) := by
  intro svcs
  induction svcs with
  | nil =>
    intro h
    refine ⟨[], by simp [deployLoop], by simp, by simp, fun _ => rfl⟩
  | cons svc rest ih =>
    intro h
    rcases hd : deployService h svc network with ⟨h1, t1, r1⟩
    have hhead : ∃ r0, t1 = Cmd.pull svc.image :: r0 := by
      obtain ⟨r0, hr0⟩ := deployService_head h svc network
      rw [hd] at hr0
      exact ⟨r0, hr0⟩
    cases r1 with
    | ok u =>
      obtain ⟨chunks, htr, hfa, hle, himp⟩ := ih h1
      rcases hrest2 : deployLoop network h1 rest with ⟨h2, t2, r2⟩
      rw [hrest2] at htr himp
      dsimp at htr himp
      have hwhole : deployLoop network h (svc :: rest) = (h2, t1 ++ t2, r2) := by
        unfold deployLoop
        rw [hd]
        simp [Step.seq, hrest2]
      refine ⟨t1 :: chunks, ?_, ?_, ?_, ?_⟩
      · rw [hwhole, htr]
        simp
      · simp only [List.length_cons, List.take_succ_cons]
        exact List.Forall₂.cons hhead hfa
      · simpa using Nat.succ_le_succ hle
      · intro hok
        rw [hwhole] at hok
        dsimp at hok
        simp [himp hok]
    | err e =>
      have hwhole : deployLoop network h (svc :: rest) = (h1, t1, .err e) := by
        unfold deployLoop
        rw [hd]
        simp [Step.seq]
      refine ⟨[t1], ?_, ?_, ?_, ?_⟩
      · rw [hwhole]
        simp
      · simp only [List.length_cons, List.length_nil, List.take_succ_cons, List.take_zero]
        exact List.Forall₂.cons hhead List.Forall₂.nil
      · simp
      · intro hok
        rw [hwhole] at hok
        simp at hok
    | panic =>
      have hwhole : deployLoop network h (svc :: rest) = (h1, t1, .panic) := by
        unfold deployLoop
        rw [hd]
        simp [Step.seq]
      refine ⟨[t1], ?_, ?_, ?_, ?_⟩
      · rw [hwhole]
        simp
      · simp only [List.length_cons, List.length_nil, List.take_succ_cons, List.take_zero]
        exact List.Forall₂.cons hhead List.Forall₂.nil
      · simp
      · intro hok
        rw [hwhole] at hok
        simp at hok

theorem createNetwork_prereq (h : Host) (network : String) :
    ∀ c ∈ (createNetwork h network).2.1, isPrereqCmd c = true := by
  intro c hc
  unfold createNetwork at hc
  rcases Step.seq_trace_mem _ _ c hc with h1 | ⟨b, _, h2⟩
  · unfold networkExists at h1
    rcases Step.seq_trace_mem _ _ c h1 with h1a | ⟨a, _, h1b⟩
    · rw [dockerNetworkLs_trace] at h1a
      rcases List.mem_singleton.mp h1a with rfl
      rfl
    · simp at h1b
  · split at h2
    · simp at h2
    · rw [dockerNetworkCreate_trace] at h2
      rcases List.mem_singleton.mp h2 with rfl
      rfl

theorem createVolume_prereq (h : Host) (volume : String) :
    ∀ c ∈ (createVolume h volume).2.1, isPrereqCmd c = true := by
  intro c hc
  unfold createVolume at hc
  rcases hq : dockerVolumeInspect h volume with ⟨h1, t1, r1⟩
  have ht1 : t1 = [Cmd.volInspect volume] := by
    have hv := dockerVolumeInspect_trace h volume
    rw [hq] at hv
    exact hv
  rw [hq] at hc
  cases r1 with
  | ok u =>
    dsimp at hc
    rw [ht1] at hc
    rcases List.mem_singleton.mp hc with rfl
    rfl
  | err e =>
    dsimp at hc
    rcases hr : dockerVolumeCreate h1 volume with ⟨h2, t2, r2⟩
    have ht2 : t2 = [Cmd.volCreate volume] := by
      have hv := dockerVolumeCreate_trace h1 volume
      rw [hr] at hv
      exact hv
    rw [hr] at hc
    dsimp at hc
    rcases List.mem_append.mp hc with hA | hB
    · rw [ht1] at hA
      rcases List.mem_singleton.mp hA with rfl
      rfl
    · rw [ht2] at hB
      rcases List.mem_singleton.mp hB with rfl
      rfl
  | panic =>
    dsimp at hc
    rw [ht1] at hc
    rcases List.mem_singleton.mp hc with rfl
    rfl

theorem volumeLoop_prereq :
    ∀ (vols : List String) (h : Host),
      ∀ c ∈ (volumeLoop h vols).2.1, isPrereqCmd c = true := by
  intro vols
  induction vols with
  | nil =>
    intro h c hc
    simp [volumeLoop] at hc
  | cons v rest ih =>
    intro h c hc
    unfold volumeLoop at hc
    rcases Step.seq_trace_mem _ _ c hc with h1 | ⟨a, _, h2⟩
    · exact createVolume_prereq _ _ c h1
    · exact ih _ c h2

theorem projectFolder_head (h : Host) (project : String) :
    ∃ rest, (projectFolder h project).2.1 = Cmd.echoHome :: rest := by
  unfold projectFolder
  obtain ⟨rest, hrest⟩ := Step.seq_trace_prefix (execEchoHome h) _
  rw [hrest, execEchoHome_trace]
  exact ⟨rest, rfl⟩

theorem makeProjectFolder_head (h : Host) (project : String) :
    ∃ rest, (makeProjectFolder h project).2.1 = Cmd.echoHome :: rest := by
  obtain ⟨r0, hr0⟩ := projectFolder_head h project
  unfold makeProjectFolder
  obtain ⟨rest, hrest⟩ := Step.seq_trace_prefix (projectFolder h project) _
  rw [hrest, hr0]
  exact ⟨r0 ++ rest, by simp⟩

theorem prepareProjectFolder_head (h : Host) (project : String) :
    ∃ rest, (prepareProjectFolder h project).2.1 = Cmd.echoHome :: rest := by
  obtain ⟨r0, hr0⟩ := makeProjectFolder_head h project
  unfold prepareProjectFolder
  obtain ⟨rest, hrest⟩ := Step.seq_trace_prefix (makeProjectFolder h project) _
  rw [hrest, hr0]
  exact ⟨r0 ++ rest, by simp⟩

theorem StartProxy_head (h : Host) (project : String) (cfg : Config) (network : String) :
    ∃ rest, (StartProxy h project cfg network).2.1 = Cmd.echoHome :: rest := by
  obtain ⟨r0, hr0⟩ := prepareProjectFolder_head h project
  unfold StartProxy
  obtain ⟨rest, hrest⟩ := Step.seq_trace_prefix (prepareProjectFolder h project) _
  rw [hrest, hr0]
  exact ⟨r0 ++ rest, by simp⟩

/-- C7: on one host, Deploy's trace factors as prerequisite commands
(network/volume existence and creation), then one contiguous chunk per
declared service in declaration order — each chunk opening with that
service's image pull and containing no prerequisite command — then the
proxy phase last (opening with the home-dir probe).  A failed service ends
the trace: no chunk for a later service and no proxy command is issued,
and Deploy does not return success. -/
theorem C7_deploy_ordering (h : Host) (cfg : Config) (network : String) :
    ∃ (preT : List Cmd) (chunks : List (List Cmd)) (postT : List Cmd),
      (Deploy h cfg network).2.1 = preT ++ chunks.flatten ++ postT ∧
      (∀ c ∈ preT, isPrereqCmd c = true) ∧
      (∀ t ∈ chunks, ∀ c ∈ t, isPrereqCmd c = false) ∧
      (∀ c ∈ postT, isPrereqCmd c = false) ∧
      List.Forall₂ (fun (t : List Cmd) (svc : Service) =>
        ∃ rest, t = Cmd.pull svc.image :: rest)
        chunks (cfg.services.take chunks.length) ∧
      chunks.length ≤ cfg.services.length ∧
      ((Deploy h cfg network).2.2 = Res.ok () →
        chunks.length = cfg.services.length ∧
        ∃ rest, postT = Cmd.echoHome :: rest) ∧
      (chunks.length < cfg.services.length →
        postT = [] ∧ (Deploy h cfg network).2.2 ≠ Res.ok ()) := by
  rcases hcn : createNetwork h network with ⟨h1, tc, rc⟩
  have htc : ∀ c ∈ tc, isPrereqCmd c = true := by
    have hv := createNetwork_prereq h network
    rw [hcn] at hv
    exact hv
  cases rc with
  | ok u =>
    rcases hvl : volumeLoop h1 cfg.volumes with ⟨h2, tv, rv⟩
    have htv : ∀ c ∈ tv, isPrereqCmd c = true := by
      have hv := volumeLoop_prereq cfg.volumes h1
      rw [hvl] at hv
      exact hv
    cases rv with
    | ok u2 =>
      obtain ⟨chunks, htr, hfa, hle, himp⟩ := deployLoop_decomp network cfg.services h2
      rcases hdl : deployLoop network h2 cfg.services with ⟨h3, td, rd⟩
      rw [hdl] at htr himp
      dsimp at htr himp
      have htd : ∀ c ∈ td, isPrereqCmd c = false := by
        have hv := deployLoop_vocab network cfg.services h2
        rw [hdl] at hv
        exact hv
      have hchunks : ∀ t ∈ chunks, ∀ c ∈ t, isPrereqCmd c = false := by
        intro t ht c hc
        apply htd
        rw [htr]
        exact List.mem_flatten.mpr ⟨t, ht, hc⟩
      cases rd with
      | ok u3 =>
        rcases hsp : StartProxy h3 cfg.project.name cfg network with ⟨h4, tp, rp⟩
        have htp : ∀ c ∈ tp, isPrereqCmd c = false := by
          have hv := StartProxy_vocab h3 cfg.project.name cfg network
          rw [hsp] at hv
          exact hv
        have hhead : ∃ rest, tp = Cmd.echoHome :: rest := by
          obtain ⟨r0, hr0⟩ := StartProxy_head h3 cfg.project.name cfg network
          rw [hsp] at hr0
          exact ⟨r0, hr0⟩
        have hwhole : Deploy h cfg network = (h4, tc ++ (tv ++ (td ++ tp)), rp) := by
          unfold Deploy
          rw [hcn]
          simp only [Step.seq]
          rw [hvl]
          simp only [Step.seq]
          rw [hdl]
          simp only [Step.seq]
          rw [hsp]
        refine ⟨tc ++ tv, chunks, tp, ?_, ?_, hchunks, htp, hfa, hle, ?_, ?_⟩
        · rw [hwhole, htr]
          simp
        · intro c hc
          rcases List.mem_append.mp hc with hA | hB
          · exact htc c hA
          · exact htv c hB
        · intro _
          exact ⟨himp rfl, hhead⟩
        · intro hlt
          exact absurd (himp rfl) (Nat.ne_of_lt hlt)
      | err e =>
        have hwhole : Deploy h cfg network = (h3, tc ++ (tv ++ td), Res.err e) := by
          unfold Deploy
          rw [hcn]
          simp only [Step.seq]
          rw [hvl]
          simp only [Step.seq]
          rw [hdl]
        refine ⟨tc ++ tv, chunks, [], ?_, ?_, hchunks, by simp, hfa, hle, ?_, ?_⟩
        · rw [hwhole, htr]
          simp
        · intro c hc
          rcases List.mem_append.mp hc with hA | hB
          · exact htc c hA
          · exact htv c hB
        · intro hok
          rw [hwhole] at hok
          simp at hok
        · intro hlt
          refine ⟨rfl, ?_⟩
          rw [hwhole]
          simp
      | panic =>
        have hwhole : Deploy h cfg network = (h3, tc ++ (tv ++ td), Res.panic) := by
          unfold Deploy
          rw [hcn]
          simp only [Step.seq]
          rw [hvl]
          simp only [Step.seq]
          rw [hdl]
        refine ⟨tc ++ tv, chunks, [], ?_, ?_, hchunks, by simp, hfa, hle, ?_, ?_⟩
        · rw [hwhole, htr]
          simp
        · intro c hc
          rcases List.mem_append.mp hc with hA | hB
          · exact htc c hA
          · exact htv c hB
        · intro hok
          rw [hwhole] at hok
          simp at hok
        · intro hlt
          refine ⟨rfl, ?_⟩
          rw [hwhole]
          simp
    | err e =>
      have hwhole : Deploy h cfg network = (h2, tc ++ tv, Res.err e) := by
        unfold Deploy
        rw [hcn]
        simp only [Step.seq]
        rw [hvl]
      refine ⟨tc ++ tv, [], [], ?_, ?_, by simp, by simp, by simp, by simp, ?_, ?_⟩
      · rw [hwhole]
        simp
      · intro c hc
        rcases List.mem_append.mp hc with hA | hB
        · exact htc c hA
        · exact htv c hB
      · intro hok
        rw [hwhole] at hok
        simp at hok
      · intro hlt
        refine ⟨rfl, ?_⟩
        rw [hwhole]
        simp
    | panic =>
      have hwhole : Deploy h cfg network = (h2, tc ++ tv, Res.panic) := by
        unfold Deploy
        rw [hcn]
        simp only [Step.seq]
        rw [hvl]
      refine ⟨tc ++ tv, [], [], ?_, ?_, by simp, by simp, by simp, by simp, ?_, ?_⟩
      · rw [hwhole]
        simp
      · intro c hc
        rcases List.mem_append.mp hc with hA | hB
        · exact htc c hA
        · exact htv c hB
      · intro hok
        rw [hwhole] at hok
        simp at hok
      · intro hlt
        refine ⟨rfl, ?_⟩
        rw [hwhole]
        simp
  | err e =>
    have hwhole : Deploy h cfg network = (h1, tc, Res.err e) := by
      unfold Deploy
      rw [hcn]
      simp only [Step.seq]
    refine ⟨tc, [], [], ?_, htc, by simp, by simp, by simp, by simp, ?_, ?_⟩
    · rw [hwhole]
      simp
    · intro hok
      rw [hwhole] at hok
      simp at hok
    · intro hlt
      refine ⟨rfl, ?_⟩
      rw [hwhole]
      simp
  | panic =>
    have hwhole : Deploy h cfg network = (h1, tc, Res.panic) := by
      unfold Deploy
      rw [hcn]
      simp only [Step.seq]
    refine ⟨tc, [], [], ?_, htc, by simp, by simp, by simp, by simp, ?_, ?_⟩
    · rw [hwhole]
      simp
    · intro hok
      rw [hwhole] at hok
      simp at hok
    · intro hlt
      refine ⟨rfl, ?_⟩
      rw [hwhole]
      simp

theorem not_prereq_not_create (c : Cmd) (hc : isPrereqCmd c = false) :
    isCreateCmd c = false := by
  cases c <;> simp [isPrereqCmd, isCreateCmd] at *

theorem createNetwork_exists_spec (h : Host) (network : String)
    (hfail : h.failures = []) (hnet : h.networks.contains network = true) :
    createNetwork h network = (h, [Cmd.netLs], Res.ok ()) := by
  have hmem : network ∈ h.networks := by simpa using hnet
  simp [createNetwork, networkExists, dockerNetworkLs, Step.seq, Host.failsOn,
    hfail, hmem]

theorem createVolume_exists_spec (h : Host) (volume : String)
    (hfail : h.failures = []) (hvol : h.volumes.contains volume = true) :
    createVolume h volume = (h, [Cmd.volInspect volume], Res.ok ()) := by
  have hmem : volume ∈ h.volumes := by simpa using hvol
  simp [createVolume, dockerVolumeInspect, Host.failsOn, hfail, hmem]

theorem volumeLoop_all_present :
    ∀ (vols : List String) (h : Host), h.failures = [] →
      (∀ v ∈ vols, h.volumes.contains v = true) →
      volumeLoop h vols = (h, vols.map Cmd.volInspect, Res.ok ()) := by
  intro vols
  induction vols with
  | nil =>
    intro h _ _
    simp [volumeLoop]
  | cons v rest ih =>
    intro h hfail hvols
    have hv := createVolume_exists_spec h v hfail (hvols v (by simp))
    have hr := ih h hfail (fun w hw => hvols w (by simp [hw]))
    unfold volumeLoop
    rw [hv]
    simp [Step.seq, hr]

/-- C8: when the shared network and every declared volume already exist on a
clean host, a full Deploy run issues no network-create and no volume-create
command; the prerequisite phase is reduced to the existence probes and the
run proceeds to the service phase unchanged. -/
theorem C8_idempotent_prereqs (h : Host) (cfg : Config) (network : String)
    (hfail : h.failures = [])
    (hnet : h.networks.contains network = true)
    (hvols : ∀ v ∈ cfg.volumes, h.volumes.contains v = true) :
    (∀ c ∈ (Deploy h cfg network).2.1, isCreateCmd c = false) ∧
    ∃ rest, (Deploy h cfg network).2.1 =
      Cmd.netLs :: (cfg.volumes.map Cmd.volInspect ++ rest) := by
  have hcn := createNetwork_exists_spec h network hfail hnet
  have hvl := volumeLoop_all_present cfg.volumes h hfail hvols
  rcases hdl : deployLoop network h cfg.services with ⟨h3, td, rd⟩
  have htd : ∀ c ∈ td, isPrereqCmd c = false := by
    have hv := deployLoop_vocab network cfg.services h
    rw [hdl] at hv
    exact hv
  cases rd with
  | ok u =>
    rcases hsp : StartProxy h3 cfg.project.name cfg network with ⟨h4, tp, rp⟩
    have htp : ∀ c ∈ tp, isPrereqCmd c = false := by
      have hv := StartProxy_vocab h3 cfg.project.name cfg network
      rw [hsp] at hv
      exact hv
    have hwhole : Deploy h cfg network =
        (h4, Cmd.netLs :: (cfg.volumes.map Cmd.volInspect ++ (td ++ tp)), rp) := by
      unfold Deploy
      rw [hcn]
      simp only [Step.seq]
      rw [hvl]
      simp only [Step.seq]
      rw [hdl]
      simp only [Step.seq]
      rw [hsp]
      simp
    refine ⟨?_, td ++ tp, by rw [hwhole]⟩
    intro c hc
    rw [hwhole] at hc
    dsimp at hc
    rcases List.mem_cons.mp hc with rfl | hc1
    · rfl
    · rcases List.mem_append.mp hc1 with hA | hB
      · rcases List.mem_map.mp hA with ⟨v, _, rfl⟩
        rfl
      · rcases List.mem_append.mp hB with hB1 | hB2
        · exact not_prereq_not_create c (htd c hB1)
        · exact not_prereq_not_create c (htp c hB2)
  | err e =>
    have hwhole : Deploy h cfg network =
        (h3, Cmd.netLs :: (cfg.volumes.map Cmd.volInspect ++ td), Res.err e) := by
      unfold Deploy
      rw [hcn]
      simp only [Step.seq]
      rw [hvl]
      simp only [Step.seq]
      rw [hdl]
      simp
    refine ⟨?_, td, by rw [hwhole]⟩
    intro c hc
    rw [hwhole] at hc
    dsimp at hc
    rcases List.mem_cons.mp hc with rfl | hc1
    · rfl
    · rcases List.mem_append.mp hc1 with hA | hB
      · rcases List.mem_map.mp hA with ⟨v, _, rfl⟩
        rfl
      · exact not_prereq_not_create c (htd c hB)
  | panic =>
    have hwhole : Deploy h cfg network =
        (h3, Cmd.netLs :: (cfg.volumes.map Cmd.volInspect ++ td), Res.panic) := by
      unfold Deploy
      rw [hcn]
      simp only [Step.seq]
      rw [hvl]
      simp only [Step.seq]
      rw [hdl]
      simp
    refine ⟨?_, td, by rw [hwhole]⟩
    intro c hc
    rw [hwhole] at hc
    dsimp at hc
    rcases List.mem_cons.mp hc with rfl | hc1
    · rfl
    · rcases List.mem_append.mp hc1 with hA | hB
      · rcases List.mem_map.mp hA with ⟨v, _, rfl⟩
        rfl
      · exact not_prereq_not_create c (htd c hB)

/-- Witness for C8 at a concrete host that already has the network and the
declared volume. -/
theorem C8_idempotent_prereqs_witness :
    (∀ c ∈ (Deploy hostDeploy cfgW "net").2.1, isCreateCmd c = false) ∧
    ∃ rest, (Deploy hostDeploy cfgW "net").2.1 =
      Cmd.netLs :: (cfgW.volumes.map Cmd.volInspect ++ rest) :=
  C8_idempotent_prereqs hostDeploy cfgW "net" rfl (by decide) (by decide)
